import Mathlib

/-!
Shallow embedding of the PostgreSQL performance-collection tool
(`perf_test_with_resize_restart/collect_tps_and_resize.py` and
`perf_test/CreatePGCommand.py`) together with proofs about the
command planner, the benchmark runner, and the shared-buffers
resize sequencer.

Conventions of the embedding:
- Python `float` configuration values are modelled as rationals.
- Python `int(x)` (truncation toward zero) is `pyInt`.
- Python string membership `pat in s` is `strContains s pat`.
- Commands built by string concatenation are built the same way here.
-/

/-- Python `int()` applied to a float/rational: truncation toward zero. -/
def pyInt (q : ℚ) : ℤ :=
  if 0 ≤ q then ⌊q⌋ else -⌊-q⌋

/-- Python truthiness of an `Optional[int]`: `None` and `0` are falsy. -/
def pyTruthy : Option ℤ → Bool
  | none => false
  | some v => v != 0

/-- Decidable check that `pat` occurs as a contiguous substring of `l`. -/
def infixOfB (pat : List Char) : List Char → Bool
  | [] => pat.isEmpty
  | c :: l => pat.isPrefixOf (c :: l) || infixOfB pat l

/-- Python `pat in s` on strings. -/
def strContains (s pat : String) : Bool :=
  infixOfB pat.data s.data

/-- The server dictionary produced by `Config.to_server_dict` /
consumed by `CreatePGCommand` (keys `pgserver_*`). -/
structure Server where
  hosturl : String
  dbport : String
  dbname : String
  testmode : String
  vcore : ℕ
  client_Multiplier : ℚ
  thread_Multiplier : ℚ
  warmupduration : ℕ
  testduration : ℕ
  RW_testduration : ℕ
  RO_fullCacheSF : ℚ
  RO_BorderLineSF : ℚ
  RW_fullcacheSF : ℚ
  RO_FixedSF : ℤ
  RW_FixedSF : ℤ

/-- The pipeline dictionary returned by `pgcommand_to_execute`:
keys `initialize`, `warmupruns` (optional), `testruns`. -/
structure PGDict where
  initializeCmd : String
  warmupruns : Option String
  testruns : String
deriving DecidableEq, Repr

namespace CreatePGCommand

/-- `CreatePGCommand.calculate_scalefactor` of
`collect_tps_and_resize.py` (identical in `perf_test/CreatePGCommand.py`):
`int(sf_multiplier * v_cores / 2)`. -/
def calculate_scalefactor (sf_multiplier : ℚ) (v_cores : ℕ) : ℤ :=
  pyInt (sf_multiplier * v_cores / 2)

/-- `CreatePGCommand.calculate_scale_thread_connection` of
`collect_tps_and_resize.py`.  Unrecognized test cases fall through to
`(None, connections, threads)`. -/
def calculate_scale_thread_connection (server : Server) (testcase : String) :
    Option ℤ × ℤ × ℤ :=
  let v_cores := server.vcore
  let connections := pyInt (server.client_Multiplier * v_cores)
  let threads := pyInt (server.thread_Multiplier * v_cores)
  if testcase = "Select1" then (none, 1, 1)
  else if testcase = "Select1NPPS" then (none, connections, threads)
  else if testcase = "RO_FullyCached" then
    (some (calculate_scalefactor server.RO_fullCacheSF v_cores), connections, threads)
  else if testcase = "RO_Borderline" then
    (some (calculate_scalefactor server.RO_BorderLineSF v_cores), connections, threads)
  else if testcase = "RW_FullyCached" then
    (some (calculate_scalefactor server.RW_fullcacheSF v_cores), connections, threads)
  else if testcase = "RO_FixedSF" then (some server.RO_FixedSF, connections, threads)
  else if testcase = "RW_FixedSF" then (some server.RW_FixedSF, connections, threads)
  else (none, connections, threads)

/-- `CreatePGCommand.pgcommand_to_execute` of `collect_tps_and_resize.py`. -/
def pgcommand_to_execute (server : Server) (testcase : String)
    (pgserver_select1file : String) (bin_directory : String) : PGDict :=
  let pgcommand_bin := bin_directory ++ "/pgbench"
  let connection_params := " -h " ++ server.hosturl ++ " -p " ++ server.dbport
  let init0 := pgcommand_bin ++ " -i" ++ connection_params
  let pgbench_common := pgcommand_bin ++ " -P 2" ++ " -M " ++ server.testmode ++ connection_params
  let stc := calculate_scale_thread_connection server testcase
  let scale_factor := stc.1
  let connections := stc.2.1
  let threads := stc.2.2
  let cmd0 := pgbench_common ++ " -c " ++ toString connections ++ " -j " ++ toString threads
  -- `if scale_factor:` — Python truthiness of Optional[int]
  let cmd1 := if pyTruthy scale_factor then
      cmd0 ++ " -s " ++ toString (scale_factor.getD 0) else cmd0
  let init1 := if pyTruthy scale_factor then
      init0 ++ " -s " ++ toString (scale_factor.getD 0) else init0
  let ro := strContains testcase "RO_"
  let rw := strContains testcase "RW_"
  let sel := strContains testcase "Select"
  let warmup_required := ro || rw
  let cmd2 := if ro then cmd1 ++ " -S " else cmd1
  let init2 := if rw then init1 ++ " -F 90" else init1
  let cmd3 := if sel then cmd2 ++ " -f " ++ pgserver_select1file else cmd2
  let warmupcmd := cmd3 ++ " -T " ++ toString server.warmupduration ++ " " ++ server.dbname
  let cmd4 := if rw then cmd3 ++ " -T " ++ toString server.RW_testduration
      else cmd3 ++ " -T " ++ toString server.testduration
  { initializeCmd := init2 ++ " " ++ server.dbname
    warmupruns := if warmup_required then some warmupcmd else none
    testruns := cmd4 ++ " " ++ server.dbname }

end CreatePGCommand

namespace PerfTest

/-- `CreatePGCommand.calculate_scale_thread_connection` of
`perf_test/CreatePGCommand.py`.  On the fall-through branch this
function returns the bare value `None` (not a 3-tuple), modelled as the
outer `none`. -/
def calculate_scale_thread_connection (server : Server) (testcase : String) :
    Option (Option ℤ × ℤ × ℤ) :=
  let v_cores := server.vcore
  let connections := pyInt (server.client_Multiplier * v_cores)
  let threads := pyInt (server.thread_Multiplier * v_cores)
  if testcase = "Select1" then some (none, 1, 1)
  else if testcase = "Select1NPPS" then some (none, connections, threads)
  else if testcase = "RO_FullyCached" then
    some (some (CreatePGCommand.calculate_scalefactor server.RO_fullCacheSF v_cores),
      connections, threads)
  else if testcase = "RO_Borderline" then
    some (some (CreatePGCommand.calculate_scalefactor server.RO_BorderLineSF v_cores),
      connections, threads)
  else if testcase = "RW_FullyCached" then
    some (some (CreatePGCommand.calculate_scalefactor server.RW_fullcacheSF v_cores),
      connections, threads)
  else if testcase = "RO_FixedSF" then some (some server.RO_FixedSF, connections, threads)
  else if testcase = "RW_FixedSF" then some (some server.RW_FixedSF, connections, threads)
  else none

/-- `CreatePGCommand.pgcommand_to_execute` of `perf_test/CreatePGCommand.py`.
The caller unpacks the result of `calculate_scale_thread_connection` into a
3-tuple; when that call returns the bare `None` the unpacking raises
`TypeError`, modelled as the result `none`. -/
def pgcommand_to_execute (server : Server) (testcase : String)
    (pgserver_select1file : String) (bin_directory : String) : Option PGDict :=
  match calculate_scale_thread_connection server testcase with
  | none => none
  | some (scale_factor, connections, threads) =>
    let pgcommand_bin := bin_directory ++ "/pgbench"
    let connection_params := " -h " ++ server.hosturl ++ " -p " ++ server.dbport
    let init0 := pgcommand_bin ++ " -i" ++ connection_params
    let pgbench_common := pgcommand_bin ++ " -P 10" ++ " -M " ++ server.testmode ++ connection_params
    let cmd0 := pgbench_common ++ " -c " ++ toString connections ++ " -j " ++ toString threads
    let cmd1 := if pyTruthy scale_factor then
        cmd0 ++ " -s " ++ toString (scale_factor.getD 0) else cmd0
    let init1 := if pyTruthy scale_factor then
        init0 ++ " -s " ++ toString (scale_factor.getD 0) else init0
    let ro := strContains testcase "RO_"
    let rw := strContains testcase "RW_"
    let sel := strContains testcase "Select"
    let warmup_required := ro || rw
    let cmd2 := if ro then cmd1 ++ " -S " else cmd1
    let init2 := if rw then init1 ++ " -F 90" else init1
    let cmd3 := if sel then cmd2 ++ " -f " ++ pgserver_select1file else cmd2
    let warmupcmd := cmd3 ++ " -T " ++ toString server.warmupduration ++ " testdb"
    let cmd4 := if rw then cmd3 ++ " -T " ++ toString server.RW_testduration
        else cmd3 ++ " -T " ++ toString server.testduration
    some { initializeCmd := init2 ++ " testdb"
           warmupruns := if warmup_required then some warmupcmd else none
           testruns := cmd4 ++ " testdb" }

end PerfTest

/-- A server record carrying the `Config` defaults of
`collect_tps_and_resize.py` (host/port/dbname/testmode, multipliers,
durations, scale-factor parameters), parameterized by the quantities the
planner claims quantify over. -/
def mkServer (vcore : ℕ) (cm tm : ℚ) (roFull roBorder rwFull : ℚ) : Server :=
  { hosturl := "localhost"
    dbport := "5432"
    dbname := "testdb"
    testmode := "prepared"
    vcore := vcore
    client_Multiplier := cm
    thread_Multiplier := tm
    warmupduration := 120
    testduration := 3600
    RW_testduration := 300
    RO_fullCacheSF := roFull
    RO_BorderLineSF := roBorder
    RW_fullcacheSF := rwFull
    RO_FixedSF := 100
    RW_FixedSF := 50 }

/-! ### Shared cancellation signal

Waiting primitives (`threading.Event.is_set` / `Event.wait`) are modelled
against a discrete clock: `k` counts completed waits, and the external
agent sets the event just before tick `sa` (never, when `sa = none`).
`is_set` at clock `k` reads `sigSet sa k`; a wait at clock `k` returns
`sigSet sa (k+1)` (the event may arrive during the wait) and advances the
clock. -/

/-- Is the stop event set at tick `k`? -/
def sigSet : Option ℕ → ℕ → Bool
  | none, _ => false
  | some n, k => decide (n ≤ k)

/-! ### Benchmark runner (`BenchmarkRunner` of `collect_tps_and_resize.py`) -/

/-- One row written to `tps_latency_logs.csv` by `_execute_pgbench_command`. -/
structure MetricSample where
  test_case : String
  run_type : String
  elapsed : ℚ
  tps : ℚ
  latency_avg : ℚ
  latency_stddev : ℚ
deriving DecidableEq, Repr

/-- Maximal run of characters of the regex class `[\d.]` (greedy `+`;
the following literal in the progress pattern starts with a space, so
greedy matching never backtracks into the run). -/
def takeNumRun : List Char → List Char × List Char
  | [] => ([], [])
  | c :: l =>
    if c.isDigit || c == '.' then
      let (a, b) := takeNumRun l
      (c :: a, b)
    else ([], c :: l)

/-- Strip an exact literal prefix. -/
def stripLit : List Char → List Char → Option (List Char)
  | [], l => some l
  | _ :: _, [] => none
  | p :: ps, c :: l => if c = p then stripLit ps l else none

/-- Match the progress regex
`progress: ([\d.]+) s, ([\d.]+) tps, lat ([\d.]+) ms stddev ([\d.]+)`
anchored at the start of `l`, returning the four capture groups. -/
def matchProgressAt (l : List Char) :
    Option (List Char × List Char × List Char × List Char) :=
  match stripLit "progress: ".data l with
  | none => none
  | some l1 =>
    match takeNumRun l1 with
    | (g1, r1) =>
      if g1 = [] then none else
      match stripLit " s, ".data r1 with
      | none => none
      | some l2 =>
        match takeNumRun l2 with
        | (g2, r2) =>
          if g2 = [] then none else
          match stripLit " tps, lat ".data r2 with
          | none => none
          | some l3 =>
            match takeNumRun l3 with
            | (g3, r3) =>
              if g3 = [] then none else
              match stripLit " ms stddev ".data r3 with
              | none => none
              | some l4 =>
                match takeNumRun l4 with
                | (g4, _) => if g4 = [] then none else some (g1, g2, g3, g4)

/-- `re.search`: try the pattern at each successive start position,
returning the leftmost match. -/
def searchProgress : List Char → Option (List Char × List Char × List Char × List Char)
  | [] => matchProgressAt []
  | c :: t =>
    match matchProgressAt (c :: t) with
    | some r => some r
    | none => searchProgress t

/-- Split a character list at `'.'` occurrences. -/
def splitDot : List Char → List (List Char)
  | [] => [[]]
  | c :: r =>
    if c = '.' then [] :: splitDot r
    else
      match splitDot r with
      | [] => [[c]]
      | h :: t => (c :: h) :: t

/-- Decimal value of a digit list. -/
def digitsToNat (l : List Char) : ℕ :=
  l.foldl (fun a c => a * 10 + (c.toNat - '0'.toNat)) 0

/-- Python `float()` on a capture of the class `[\d.]+`: digits with at
most one decimal point; anything else raises and yields no sample. -/
def pyFloat (s : List Char) : Option ℚ :=
  match splitDot s with
  | [ip] =>
    if ip ≠ [] ∧ ip.all Char.isDigit then some (digitsToNat ip) else none
  | [ip, fp] =>
    if ip ++ fp ≠ [] ∧ (ip ++ fp).all Char.isDigit then
      some ((digitsToNat ip : ℚ) + (digitsToNat fp : ℚ) / (10 : ℚ) ^ fp.length)
    else none
  | _ => none

/-- The per-line body of the stderr loop in `_execute_pgbench_command`:
skip lines without `"progress:"`, run the regex search, convert the four
groups with `float()`, and emit one CSV row (metric sample) on success. -/
def processLine (test_case run_type : String) (line : String) : Option MetricSample :=
  if strContains line "progress:" then
    match searchProgress line.data with
    | none => none
    | some (g1, g2, g3, g4) =>
      match pyFloat g1, pyFloat g2, pyFloat g3, pyFloat g4 with
      | some e, some t, some la, some sd =>
        some { test_case := test_case, run_type := run_type, elapsed := e,
               tps := t, latency_avg := la, latency_stddev := sd }
      | _, _, _, _ => none
  else none

/-- Outcome of one `_execute_pgbench_command` invocation. -/
structure IterRec where
  startTick : ℕ
  endTick : ℕ
  samples : List MetricSample
  linesRead : ℕ
  cancelled : Bool
  terminated : Bool
deriving DecidableEq, Repr

/-- The stderr read loop of `_execute_pgbench_command`
(`while not stop_event.is_set(): line = process.stderr.readline(); ...`):
the stop event is re-checked before every readline; each readline advances
the clock one tick.  Returns (samples, final clock, lines read,
exited-by-cancellation). -/
def readLoop (tc rt : String) (sa : Option ℕ) : List String → ℕ → List MetricSample × ℕ × ℕ × Bool
  | [], k =>
    if sigSet sa k then ([], k, 0, true)
    else ([], k + 1, 0, false)
  | line :: rest, k =>
    if sigSet sa k then ([], k, 0, true)
    else
      let s := processLine tc rt line
      let r := readLoop tc rt sa rest (k + 1)
      (s.toList ++ r.1, r.2.1, r.2.2.1 + 1, r.2.2.2)

/-- One `_execute_pgbench_command` call: run the read loop, then the
`finally` block terminates the subprocess when it is still running, i.e.
exactly when the loop was cancelled before consuming the output. -/
def execIteration (tc rt : String) (lines : List String) (sa : Option ℕ) (k : ℕ) : IterRec :=
  let r := readLoop tc rt sa lines k
  { startTick := k, endTick := r.2.1, samples := r.1, linesRead := r.2.2.1,
    cancelled := r.2.2.2, terminated := r.2.2.2 }

/-- The continuous measurement loop of `run_test_cases`
(`while not stop_event.is_set(): ... run measurement ...; stop_event.wait(2)`),
with explicit fuel (the loop itself is unbounded); `outputs i` is the
stderr of measurement iteration `i`. -/
def runLoop (tc : String) (outputs : ℕ → List String) (sa : Option ℕ) :
    ℕ → ℕ → ℕ → List IterRec
  | 0, _, _ => []
  | fuel + 1, k, i =>
    if sigSet sa k then []
    else
      let r := execIteration tc "measurement" (outputs i) sa k
      if sigSet sa r.endTick then [r]
      else r :: runLoop tc outputs sa fuel (r.endTick + 1) (i + 1)

/-! ### Resize sequencer (`ResizeController` of `collect_tps_and_resize.py`) -/

/-- External-world responses for one sequencer step: outcome of the
`ALTER SYSTEM` statement, of `pg_reload_conf()`, the number of
`pg_resize_shared_buffers()` polls answering successfully but not `"t"`
before the decisive poll, whether the decisive poll is a truthy success
(else the query fails), the number of `postgres_is_running()` checks
returning `False` during restart recovery, and the outcome of
`SHOW shared_buffers`. -/
structure StepEnv where
  applyOk : Bool
  reloadOk : Bool
  resizePre : ℕ
  resizeFinalOk : Bool
  restartPolls : ℕ
  showOk : Bool

/-- The sequencer-relevant fields of `Config` (lines 139-142). -/
structure SeqConfig where
  sequence : List ℤ
  wait_between_changes : ℕ
  restart_required : Bool
  dynamic_resize : Bool

/-- `Config` defaults: sequence `(4, 8, 12, 9, 4)`, 600 s dwell, restart
disabled, dynamic resize enabled. -/
def defaultSeqConfig : SeqConfig :=
  { sequence := [4, 8, 12, 9, 4], wait_between_changes := 600,
    restart_required := false, dynamic_resize := true }

/-- Observable events of one `resize_controller` run.  `dwell` is the
inter-step `stop_event.wait(wait_between_changes)`; `applyEv`/`reloadEv`
are the `ALTER SYSTEM`/`pg_reload_conf()` statements with their outcome;
`resizeStarted`/`resizeCompleted` and `restartStarted`/`restartCompleted`
are the CSV lifecycle records; `resizeQuery` is one
`pg_resize_shared_buffers()` call `(success, result = "t")`; `restartCmd`
is the initial `pg_ctl restart`; `startAttempt` is one `pg_ctl start`
retry; `restartCompleted` records whether `postgres_is_running()` held
when the recovery loop exited; `showEv` is `SHOW shared_buffers`. -/
inductive Ev where
  | dwell (interrupted : Bool)
  | applyEv (size : ℤ) (ok : Bool)
  | reloadEv (ok : Bool)
  | resizeStarted (size : ℤ)
  | resizeQuery (ok : Bool) (isT : Bool)
  | resizeCompleted (size : ℤ)
  | restartStarted (size : ℤ)
  | restartCmd
  | startAttempt
  | restartCompleted (size : ℤ) (up : Bool)
  | showEv (ok : Bool)
deriving DecidableEq, Repr

/-- How a sequencer step ends: proceed to the next step, `break` out of
the for loop (stop event), or `return` from the function (fatal apply
failure). -/
inductive StepOutcome
  | next
  | brk
  | fatal
deriving DecidableEq, Repr

/-- The `pg_resize_shared_buffers()` poll loop: the statement is issued
once before the loop; while it succeeds with a non-`"t"` result and a
5-second stop-wait stays unset, it is reissued.  `pre` counts the
remaining non-decisive calls; the decisive call either succeeds with
`"t"` (`fin = true`) or fails (`fin = false`) — either way the loop exits
without a further wait. -/
def pollResize (sa : Option ℕ) : ℕ → Bool → ℕ → List Ev × ℕ
  | 0, fin, k => ([Ev.resizeQuery fin fin], k)
  | pre + 1, fin, k =>
    if sigSet sa (k + 1) then ([Ev.resizeQuery true false], k + 1)
    else
      let r := pollResize sa pre fin (k + 1)
      (Ev.resizeQuery true false :: r.1, r.2)

/-- The restart-recovery loop
(`while not postgres_is_running() and not stop_event.wait(1): ...`):
`polls` counts the `postgres_is_running()` checks still answering
`False`; after each such check a 1-second stop-wait runs, and unless it
reports the stop event a `pg_ctl start` attempt follows.  Returns the
events, the clock, and whether the service was observed running when the
loop exited. -/
def waitForPostgres (sa : Option ℕ) : ℕ → ℕ → List Ev × ℕ × Bool
  | 0, k => ([], k, true)
  | polls + 1, k =>
    if sigSet sa (k + 1) then ([], k + 1, false)
    else
      let r := waitForPostgres sa polls (k + 1)
      (Ev.startAttempt :: r.1, r.2.1, r.2.2)

/-- The dynamic-resize block of a step (`if self.config.dynamic_resize:`):
record `resize-started`, run the poll loop, record `resize-completed`. -/
def dynChunk (cfg : SeqConfig) (e : StepEnv) (size : ℤ) (sa : Option ℕ) (k : ℕ) :
    List Ev × ℕ :=
  if cfg.dynamic_resize then
    let p := pollResize sa e.resizePre e.resizeFinalOk k
    (Ev.resizeStarted size :: (p.1 ++ [Ev.resizeCompleted size]), p.2)
  else ([], k)

/-- The restart block of a step (`if self.config.restart_required:`):
record `restart-started`, run `pg_ctl restart`, run the recovery loop,
record `restart-completed` (with the last observed service state), then a
final 5-second stop-wait. -/
def restChunk (cfg : SeqConfig) (e : StepEnv) (size : ℤ) (sa : Option ℕ) (k : ℕ) :
    List Ev × ℕ :=
  if cfg.restart_required then
    let w := waitForPostgres sa e.restartPolls k
    (Ev.restartStarted size :: Ev.restartCmd ::
      (w.1 ++ [Ev.restartCompleted size w.2.2]), w.2.1 + 1)
  else ([], k)

/-- The body of one sequencer step after the top-of-loop checks: issue
`ALTER SYSTEM` (failure returns from the whole function), then
`pg_reload_conf()` (failure only logged), then the dynamic-resize block,
then the restart block, then `SHOW shared_buffers`. -/
def runStepRest (cfg : SeqConfig) (e : StepEnv) (size : ℤ) (sa : Option ℕ) (k : ℕ) :
    List Ev × ℕ × StepOutcome :=
  if e.applyOk = false then ([Ev.applyEv size false], k, StepOutcome.fatal)
  else
    let rr := dynChunk cfg e size sa k
    let ss := restChunk cfg e size sa rr.2
    ([Ev.applyEv size true, Ev.reloadEv e.reloadOk] ++ rr.1 ++ ss.1 ++ [Ev.showEv e.showOk],
      ss.2, StepOutcome.next)

/-- One iteration of the `for index, size in enumerate(...)` loop:
`break` when the stop event is set; for `index > 1` run the dwell wait
(`stop_event.wait(wait_between_changes)`), breaking when it reports the
stop event; then the step body.  No dwell wait runs before the first
step. -/
def runStep (cfg : SeqConfig) (e : StepEnv) (size : ℤ) (index : ℕ) (sa : Option ℕ) (k : ℕ) :
    List Ev × ℕ × StepOutcome :=
  if sigSet sa k then ([], k, StepOutcome.brk)
  else if 1 < index then
    if sigSet sa (k + 1) then ([Ev.dwell true], k + 1, StepOutcome.brk)
    else
      let r := runStepRest cfg e size sa (k + 1)
      (Ev.dwell false :: r.1, r.2.1, r.2.2)
  else runStepRest cfg e size sa k

/-- The sequencer's for loop over the remaining sizes (1-based `index`,
as in `enumerate(..., start=1)`). -/
def runSeq (cfg : SeqConfig) (env : ℕ → StepEnv) (sa : Option ℕ) :
    List ℤ → ℕ → ℕ → List Ev
  | [], _, _ => []
  | size :: rest, index, k =>
    match runStep cfg (env index) size index sa k with
    | (evs, k', StepOutcome.next) => evs ++ runSeq cfg env sa rest (index + 1) k'
    | (evs, _, _) => evs

/-- `ResizeController.resize_controller`: walk the configured
shared-buffers sequence from index 1 and clock 0. -/
def resize_controller (cfg : SeqConfig) (env : ℕ → StepEnv) (sa : Option ℕ) : List Ev :=
  runSeq cfg env sa cfg.sequence 1 0

/-- `PerformanceCollector.run`, one test case: `ensure_database` (failure
aborts before the controller starts and the fresh stop event stays
unset); otherwise the controller thread runs, `run` joins it, and the
`finally` block — after joining the workers — always calls
`stop_event.set()`.  Returns the controller trace and the final state of
the stop event. -/
def collector_run_case (cfg : SeqConfig) (env : ℕ → StepEnv) (sa : Option ℕ)
    (ensureOk : Bool) : List Ev × Bool :=
  if ensureOk then (resize_controller cfg env sa, true) else ([], false)

/-- The all-success environment: every statement succeeds, the resize
predicate is truthy at its first poll, the service is running at the
first check after a restart. -/
def envOk : ℕ → StepEnv := fun _ =>
  { applyOk := true, reloadOk := true, resizePre := 0, resizeFinalOk := true,
    restartPolls := 0, showOk := true }

/-- An environment whose decisive `pg_resize_shared_buffers()` poll fails
(as on a backend without that function). -/
def envResizeFails : ℕ → StepEnv := fun _ =>
  { applyOk := true, reloadOk := true, resizePre := 0, resizeFinalOk := false,
    restartPolls := 0, showOk := true }

/-- An environment where the restarted service needs three recovery polls
before `postgres_is_running()` holds again. -/
def envSlowRestart : ℕ → StepEnv := fun _ =>
  { applyOk := true, reloadOk := true, resizePre := 0, resizeFinalOk := true,
    restartPolls := 3, showOk := true }

/-- Scenario B of the specification: configuration sequence `(4, 8, 12)`
with restart disabled and dynamic resize enabled. -/
def seqConfigB : SeqConfig :=
  { sequence := [4, 8, 12], wait_between_changes := 600,
    restart_required := false, dynamic_resize := true }

/-- A one-step configuration with a required restart. -/
def seqConfigRestart : SeqConfig :=
  { sequence := [4], wait_between_changes := 600,
    restart_required := true, dynamic_resize := false }

/-- A one-step configuration with dynamic resize only. -/
def seqConfigDyn : SeqConfig :=
  { sequence := [4], wait_between_changes := 600,
    restart_required := false, dynamic_resize := true }

/-! ### Trace observables -/

/-- Is the event a failed `ALTER SYSTEM`? -/
def Ev.isFailedApply : Ev → Bool
  | .applyEv _ false => true
  | _ => false

def Ev.isApply : Ev → Bool
  | .applyEv _ _ => true
  | _ => false

def Ev.isDwell : Ev → Bool
  | .dwell _ => true
  | _ => false

def Ev.isResizeStarted : Ev → Bool
  | .resizeStarted _ => true
  | _ => false

def Ev.isResizeCompleted : Ev → Bool
  | .resizeCompleted _ => true
  | _ => false

/-- Restart lifecycle records (rows of `restart_timings.csv`). -/
def Ev.isRestartRecord : Ev → Bool
  | .restartStarted _ => true
  | .restartCompleted _ _ => true
  | _ => false

/-- After a failed `ALTER SYSTEM` the trace ends immediately. -/
def afterFail : List Ev → Bool
  | [] => true
  | e :: rest => if e.isFailedApply then rest.isEmpty else afterFail rest

/-- The sizes passed to `ALTER SYSTEM`, in trace order. -/
def applyTargets (tr : List Ev) : List ℤ :=
  tr.filterMap fun e =>
    match e with
    | .applyEv s _ => some s
    | _ => none

/-- Scanner: in every prefix, `resize-completed` records never outnumber
`resize-started` records. -/
def pairScanAux : ℕ → List Ev → Bool
  | _, [] => true
  | s, Ev.resizeStarted _ :: r => pairScanAux (s + 1) r
  | s, Ev.resizeCompleted _ :: r => decide (0 < s) && pairScanAux (s - 1) r
  | s, _ :: r => pairScanAux s r

def pairScan (tr : List Ev) : Bool := pairScanAux 0 tr

/-- State update for the completed-after-truthy scanner: a
`resize-started` clears the flag, a truthy successful poll arms it. -/
def catNext (arm : Bool) : Ev → Bool
  | Ev.resizeStarted _ => false
  | Ev.resizeQuery ok t => arm || (ok && t)
  | _ => arm

/-- Check for the completed-after-truthy scanner: a `resize-completed`
is only allowed while armed. -/
def catOk (arm : Bool) : Ev → Bool
  | Ev.resizeCompleted _ => arm
  | _ => true

def catScan : Bool → List Ev → Bool
  | _, [] => true
  | arm, e :: r => catOk arm e && catScan (catNext arm e) r

/-- Every `resize-completed` record is preceded, after its
`resize-started`, by a poll that succeeded with result `"t"`. -/
def completedAfterTruthy (tr : List Ev) : Bool := catScan false tr

/-- Every `restart-completed` record was written while
`postgres_is_running()` held. -/
def restartCompletedUp : List Ev → Bool
  | [] => true
  | Ev.restartCompleted _ up :: r => up && restartCompletedUp r
  | _ :: r => restartCompletedUp r

/-- Dwell events before the first `ALTER SYSTEM` of the trace. -/
def dwellsBeforeFirstApply (tr : List Ev) : ℕ :=
  (tr.takeWhile fun e => !e.isApply).countP Ev.isDwell

/-! ### Substring machinery for the scale-factor flag

The `-s` flag is appended as the four-character piece `" -s "`.  To reason
about its absence inside commands that contain symbolic number substrings we
scan for a `'-'` immediately followed by `'s'`. -/

/-- The scale-factor flag text appended by `pgcommand_to_execute`. -/
def sFlagPat : List Char := [' ', '-', 's', ' ']

/-- Does the command string contain the `-s` flag text? -/
def hasScaleFlag (cmd : String) : Bool := strContains cmd " -s "

/-- Scanner: does the character list contain a `'-'` immediately followed
by `'s'`?  Any occurrence of `" -s "` implies such a pair. -/
def hasDS : List Char → Bool
  | [] => false
  | c :: l => (c == '-' && l.head? == some 's') || hasDS l

theorem infixOfB_of_isPrefixOf {pat l : List Char} (h : pat.isPrefixOf l = true) :
    infixOfB pat l = true := by
  cases l with
  | nil =>
    cases pat with
    | nil => rfl
    | cons a as => simp [List.isPrefixOf] at h
  | cons c l => simp [infixOfB, h]

theorem infixOfB_cons {pat l : List Char} (c : Char) (h : infixOfB pat l = true) :
    infixOfB pat (c :: l) = true := by
  simp [infixOfB, h]

/-- A list of the shape `A ++ pat ++ B` contains `pat`. -/
theorem infixOfB_append (pat A B : List Char) :
    infixOfB pat (A ++ (pat ++ B)) = true := by
  induction A with
  | nil =>
    exact infixOfB_of_isPrefixOf
      (List.isPrefixOf_iff_prefix.mpr (List.prefix_append pat B))
  | cons a A ih => exact infixOfB_cons a ih

theorem hasDS_cons {l : List Char} (c : Char) (h : hasDS l = true) :
    hasDS (c :: l) = true := by
  simp [hasDS, h]

/-- Any occurrence of the flag text `" -s "` yields a dash-s pair. -/
theorem hasDS_of_infixOfB {l : List Char} (h : infixOfB sFlagPat l = true) :
    hasDS l = true := by
  induction l with
  | nil => simp [infixOfB, sFlagPat, List.isEmpty] at h
  | cons c l ih =>
    simp only [infixOfB, Bool.or_eq_true] at h
    rcases h with h | h
    · obtain ⟨t, ht⟩ := List.isPrefixOf_iff_prefix.mp h
      rw [show sFlagPat ++ t = ' ' :: '-' :: 's' :: ' ' :: t from rfl] at ht
      cases ht
      apply hasDS_cons
      simp [hasDS]
    · exact hasDS_cons c (ih h)

/-- A character list without `'s'` contains no dash-s pair. -/
theorem hasDS_eq_false_of_not_mem {l : List Char} (h : 's' ∉ l) :
    hasDS l = false := by
  induction l with
  | nil => rfl
  | cons c l ih =>
    have h1 : c ≠ 's' := fun hc => h (hc ▸ List.mem_cons_self c l)
    have h2 : 's' ∉ l := fun hc => h (List.mem_cons_of_mem c hc)
    have h3 : l.head? ≠ some 's' := by
      intro hh
      exact h2 (List.mem_of_mem_head? hh)
    simp only [hasDS, ih h2, Bool.or_false]
    cases hl : l.head? == some 's' with
    | true => exact absurd (eq_of_beq hl) h3
    | false => simp

/-- Appending lists that contain no dash-s pair, where the right part does
not start with `'s'`, yields no dash-s pair. -/
theorem hasDS_append_eq_false {A B : List Char} (hA : hasDS A = false)
    (hB : hasDS B = false) (hh : B.head? ≠ some 's') :
    hasDS (A ++ B) = false := by
  induction A with
  | nil => simpa using hB
  | cons a A ih =>
    simp only [hasDS, Bool.or_eq_false_iff] at hA ⊢
    refine ⟨?_, ih hA.2⟩
    cases A with
    | nil =>
      cases hl : B.head? == some 's' with
      | true => exact absurd (eq_of_beq hl) hh
      | false => simp [hl]
    | cons x A' => simpa using hA.1

/-- Concatenation of a list of segments. -/
def segChain : List (List Char) → List Char
  | [] => []
  | s :: rest => s ++ segChain rest

theorem segChain_head_ne_s {segs : List (List Char)}
    (h : ∀ s ∈ segs, s.head? ≠ some 's') :
    (segChain segs).head? ≠ some 's' := by
  induction segs with
  | nil => simp [segChain]
  | cons s rest ih =>
    simp only [segChain, List.head?_append]
    intro hc
    rcases Option.or_eq_some.mp hc with h1 | ⟨_, h2⟩
    · exact h s (List.mem_cons_self s rest) h1
    · exact ih (fun t ht => h t (List.mem_cons_of_mem s ht)) h2

/-- A chain of segments each free of dash-s pairs and each not starting
with `'s'` is free of dash-s pairs. -/
theorem hasDS_segChain_eq_false {segs : List (List Char)}
    (h1 : ∀ s ∈ segs, hasDS s = false)
    (h2 : ∀ s ∈ segs, s.head? ≠ some 's') :
    hasDS (segChain segs) = false := by
  induction segs with
  | nil => rfl
  | cons s rest ih =>
    refine hasDS_append_eq_false (h1 s (List.mem_cons_self s rest)) ?_ ?_
    · exact ih (fun t ht => h1 t (List.mem_cons_of_mem s ht))
        (fun t ht => h2 t (List.mem_cons_of_mem s ht))
    · exact segChain_head_ne_s (fun t ht => h2 t (List.mem_cons_of_mem s ht))

/-- No `-s` flag in a string whose characters have no dash-s pair. -/
theorem hasScaleFlag_eq_false_of_hasDS {s : String} (h : hasDS s.data = false) :
    hasScaleFlag s = false := by
  cases heq : hasScaleFlag s with
  | false => rfl
  | true =>
    have : infixOfB sFlagPat s.data = true := heq
    rw [hasDS_of_infixOfB this] at h
    exact absurd h (by simp)

/-- Base-10 digit characters are never `'s'`. -/
theorem digitChar_ne_s {m : ℕ} (h : m < 10) : Nat.digitChar m ≠ 's' := by
  interval_cases m <;> decide

theorem s_not_mem_toDigitsCore (fuel n : ℕ) (acc : List Char)
    (h : 's' ∉ acc) : 's' ∉ Nat.toDigitsCore 10 fuel n acc := by
  induction fuel generalizing n acc with
  | zero => exact h
  | succ fuel ih =>
    simp only [Nat.toDigitsCore]
    have hcons : 's' ∉ Nat.digitChar (n % 10) :: acc := by
      intro hc
      rcases List.mem_cons.mp hc with hc | hc
      · exact digitChar_ne_s (Nat.mod_lt n (by norm_num)) hc.symm
      · exact h hc
    split
    · exact hcons
    · exact ih (n / 10) _ hcons

/-- The decimal representation of a natural number has no `'s'`. -/
theorem s_not_mem_natRepr (n : ℕ) : 's' ∉ (Nat.repr n).data :=
  s_not_mem_toDigitsCore (n + 1) n [] (by simp)

/-- The decimal representation of an integer has no `'s'`. -/
theorem s_not_mem_intRepr (i : ℤ) : 's' ∉ (toString i).data := by
  cases i with
  | ofNat m => exact s_not_mem_natRepr m
  | negSucc m =>
    show 's' ∉ ("-" ++ Nat.repr (m + 1)).data
    rw [String.data_append]
    intro hc
    rcases List.mem_append.mp hc with hc | hc
    · simp [show ("-" : String).data = ['-'] from rfl] at hc
    · exact s_not_mem_natRepr (m + 1) hc

theorem hasDS_intRepr (i : ℤ) : hasDS (toString i).data = false :=
  hasDS_eq_false_of_not_mem (s_not_mem_intRepr i)

theorem intRepr_head_ne_s (i : ℤ) : (toString i).data.head? ≠ some 's' := by
  intro hh
  exact s_not_mem_intRepr i (List.mem_of_mem_head? hh)


/-- The dash-s scanner lifted to strings, for command concatenations. -/
theorem hasDS_str_append {X Y : String} (hx : hasDS X.data = false)
    (hy : hasDS Y.data = false) (hh : Y.data.head? ≠ some 's') :
    hasDS (X ++ Y).data = false := by
  rw [String.data_append]
  exact hasDS_append_eq_false hx hy hh

theorem pyInt_eq_floor {q : ℚ} (h : 0 ≤ q) : pyInt q = ⌊q⌋ := by
  simp [pyInt, h]

theorem infixOfB_append_left {pat A : List Char} (B : List Char)
    (h : infixOfB pat A = true) : infixOfB pat (A ++ B) = true := by
  induction A with
  | nil =>
    have hp : pat = [] := by
      cases pat with
      | nil => rfl
      | cons p ps => simp [infixOfB, List.isEmpty] at h
    subst hp
    cases B with
    | nil => rfl
    | cons b B => exact infixOfB_of_isPrefixOf (by simp [List.isPrefixOf])
  | cons a A ih =>
    simp only [infixOfB, Bool.or_eq_true] at h ⊢
    rcases h with h | h
    · left
      have hp := List.isPrefixOf_iff_prefix.mp h
      exact List.isPrefixOf_iff_prefix.mpr
        (by simpa using hp.trans (List.prefix_append (a :: A) B))
    · right
      exact ih h

/-- `pat` occurs in `X ++ pat`. -/
theorem strContains_append_right (X pat : String) :
    strContains (X ++ pat) pat = true := by
  have h := infixOfB_append pat.data X.data []
  simpa [strContains, String.data_append] using h

theorem strContains_append_left {X : String} (Y : String) {pat : String}
    (h : strContains X pat = true) : strContains (X ++ Y) pat = true := by
  have := infixOfB_append_left Y.data (h : infixOfB pat.data X.data = true)
  simpa [strContains, String.data_append] using this

/-! ### Lemmas about the sequencer model -/

theorem sigSet_none (k : ℕ) : sigSet none k = false := rfl

theorem mem_pollResize {sa : Option ℕ} {p : ℕ} {f : Bool} {k : ℕ} {e : Ev}
    (h : e ∈ (pollResize sa p f k).1) : ∃ a b, e = Ev.resizeQuery a b := by
  induction p generalizing k with
  | zero =>
    simp only [pollResize, List.mem_singleton] at h
    exact ⟨f, f, h⟩
  | succ p ih =>
    simp only [pollResize] at h
    split at h
    · simp only [List.mem_singleton] at h
      exact ⟨true, false, h⟩
    · rcases List.mem_cons.mp h with h | h
      · exact ⟨true, false, h⟩
      · exact ih h

theorem mem_waitForPostgres {sa : Option ℕ} {p k : ℕ} {e : Ev}
    (h : e ∈ (waitForPostgres sa p k).1) : e = Ev.startAttempt := by
  induction p generalizing k with
  | zero => simp [waitForPostgres] at h
  | succ p ih =>
    simp only [waitForPostgres] at h
    split at h
    · simp at h
    · rcases List.mem_cons.mp h with h | h
      · exact h
      · exact ih h

/-- With the stop event never set, the poll loop issues `pre` non-decisive
calls and then the decisive one. -/
theorem pollResize_none (p : ℕ) (f : Bool) (k : ℕ) :
    pollResize none p f k =
      (List.replicate p (Ev.resizeQuery true false) ++ [Ev.resizeQuery f f], k + p) := by
  induction p generalizing k with
  | zero => simp [pollResize]
  | succ p ih =>
    simp only [pollResize, sigSet_none, Bool.false_eq_true, if_false, ih (k + 1),
      List.replicate_succ, List.cons_append, Prod.mk.injEq]
    exact ⟨trivial, by omega⟩

/-- With the stop event never set, restart recovery always exits with the
service observed running. -/
theorem waitForPostgres_none (p k : ℕ) :
    (waitForPostgres none p k).2.2 = true := by
  induction p generalizing k with
  | zero => rfl
  | succ p ih =>
    simp only [waitForPostgres, sigSet_none, Bool.false_eq_true, if_false]
    exact ih (k + 1)

/-! ### Scanner lemmas -/

theorem afterFail_cons_clean {e : Ev} (h : e.isFailedApply = false) (r : List Ev) :
    afterFail (e :: r) = afterFail r := by
  simp [afterFail, h]

theorem afterFail_append_clean {A : List Ev}
    (h : ∀ e ∈ A, e.isFailedApply = false) (B : List Ev) :
    afterFail (A ++ B) = afterFail B := by
  induction A with
  | nil => rfl
  | cons a A ih =>
    rw [List.cons_append, afterFail_cons_clean (h a (List.mem_cons_self a A))]
    exact ih fun e he => h e (List.mem_cons_of_mem a he)

theorem applyTargets_eq_nil {A : List Ev} (h : ∀ e ∈ A, e.isApply = false) :
    applyTargets A = [] := by
  rw [applyTargets, List.filterMap_eq_nil_iff]
  intro e he
  have := h e he
  cases e <;> simp_all [Ev.isApply]

theorem applyTargets_append (A B : List Ev) :
    applyTargets (A ++ B) = applyTargets A ++ applyTargets B := by
  simp [applyTargets]

theorem pairScanAux_cons_other {e : Ev} (h1 : e.isResizeStarted = false)
    (h2 : e.isResizeCompleted = false) (s : ℕ) (r : List Ev) :
    pairScanAux s (e :: r) = pairScanAux s r := by
  cases e <;> simp_all [pairScanAux, Ev.isResizeStarted, Ev.isResizeCompleted]

theorem pairScanAux_append_other {A : List Ev}
    (h : ∀ e ∈ A, e.isResizeStarted = false ∧ e.isResizeCompleted = false)
    (s : ℕ) (B : List Ev) :
    pairScanAux s (A ++ B) = pairScanAux s B := by
  induction A with
  | nil => rfl
  | cons a A ih =>
    rw [List.cons_append,
      pairScanAux_cons_other (h a (List.mem_cons_self a A)).1 (h a (List.mem_cons_self a A)).2]
    exact ih fun e he => h e (List.mem_cons_of_mem a he)

/-- State of the completed-after-truthy scanner after a list of events. -/
def catState (a : Bool) (l : List Ev) : Bool := l.foldl catNext a

theorem catScan_append (a : Bool) (A B : List Ev) :
    catScan a (A ++ B) = (catScan a A && catScan (catState a A) B) := by
  induction A generalizing a with
  | nil => simp [catScan, catState]
  | cons e A ih =>
    simp [catScan, catState, ih (catNext a e), Bool.and_assoc, List.foldl_cons]

theorem restartCompletedUp_cons (e : Ev) (r : List Ev) :
    restartCompletedUp (e :: r) =
      ((match e with | Ev.restartCompleted _ u => u | _ => true) && restartCompletedUp r) := by
  cases e <;> simp [restartCompletedUp]

theorem restartCompletedUp_append (A B : List Ev) :
    restartCompletedUp (A ++ B) = (restartCompletedUp A && restartCompletedUp B) := by
  induction A with
  | nil => simp [restartCompletedUp]
  | cons e A ih =>
    rw [List.cons_append, restartCompletedUp_cons, restartCompletedUp_cons, ih,
      Bool.and_assoc]

/-! ### Step characterization lemmas -/

theorem runStepRest_not_brk (cfg : SeqConfig) (e : StepEnv) (size : ℤ)
    (sa : Option ℕ) (k : ℕ) :
    (runStepRest cfg e size sa k).2.2 ≠ StepOutcome.brk := by
  by_cases ha : e.applyOk = false <;> simp [runStepRest, ha]

theorem runStepRest_fatal_eq {cfg : SeqConfig} {e : StepEnv} {size : ℤ}
    {sa : Option ℕ} {k : ℕ} {evs : List Ev} {k' : ℕ}
    (h : runStepRest cfg e size sa k = (evs, k', StepOutcome.fatal)) :
    evs = [Ev.applyEv size false] := by
  by_cases ha : e.applyOk = false
  · simp only [runStepRest, ha, if_true] at h
    simp only [Prod.mk.injEq] at h
    exact h.1.symm
  · simp [runStepRest, ha] at h

theorem runStepRest_next_applyOk {cfg : SeqConfig} {e : StepEnv} {size : ℤ}
    {sa : Option ℕ} {k : ℕ} {evs : List Ev} {k' : ℕ}
    (h : runStepRest cfg e size sa k = (evs, k', StepOutcome.next)) :
    e.applyOk = true := by
  by_cases ha : e.applyOk = false
  · simp [runStepRest, ha] at h
  · simpa using ha

theorem runStep_next_eq {cfg : SeqConfig} {e : StepEnv} {size : ℤ} {idx : ℕ}
    {sa : Option ℕ} {k : ℕ} {evs : List Ev} {k' : ℕ}
    (h : runStep cfg e size idx sa k = (evs, k', StepOutcome.next)) :
    (∃ kk, runStepRest cfg e size sa kk = (evs, k', StepOutcome.next)) ∨
    (∃ kk evs', runStepRest cfg e size sa kk = (evs', k', StepOutcome.next) ∧
      evs = Ev.dwell false :: evs') := by
  unfold runStep at h
  split_ifs at h with h1 h2 h3
  · simp at h
  · simp at h
  · right
    simp only [Prod.mk.injEq] at h
    exact ⟨k + 1, (runStepRest cfg e size sa (k + 1)).1,
      by rw [← h.2.1, ← h.2.2], h.1.symm⟩
  · exact Or.inl ⟨k, h⟩

theorem runStep_brk_eq {cfg : SeqConfig} {e : StepEnv} {size : ℤ} {idx : ℕ}
    {sa : Option ℕ} {k : ℕ} {evs : List Ev} {k' : ℕ}
    (h : runStep cfg e size idx sa k = (evs, k', StepOutcome.brk)) :
    evs = [] ∨ evs = [Ev.dwell true] := by
  unfold runStep at h
  split_ifs at h with h1 h2 h3
  · simp only [Prod.mk.injEq] at h
    exact Or.inl h.1.symm
  · simp only [Prod.mk.injEq] at h
    exact Or.inr h.1.symm
  · exfalso
    apply runStepRest_not_brk cfg e size sa (k + 1)
    simp only [Prod.mk.injEq] at h
    rw [h.2.2]
  · exfalso
    apply runStepRest_not_brk cfg e size sa k
    rw [h]

theorem runStep_fatal_eq {cfg : SeqConfig} {e : StepEnv} {size : ℤ} {idx : ℕ}
    {sa : Option ℕ} {k : ℕ} {evs : List Ev} {k' : ℕ}
    (h : runStep cfg e size idx sa k = (evs, k', StepOutcome.fatal)) :
    evs = [Ev.applyEv size false] ∨ evs = [Ev.dwell false, Ev.applyEv size false] := by
  unfold runStep at h
  split_ifs at h with h1 h2 h3
  · simp at h
  · simp at h
  · simp only [Prod.mk.injEq] at h
    right
    have hr : runStepRest cfg e size sa (k + 1) =
        ((runStepRest cfg e size sa (k + 1)).1, k', StepOutcome.fatal) := by
      rw [← h.2.1, ← h.2.2]
    rw [← h.1, runStepRest_fatal_eq hr]
  · exact Or.inl (runStepRest_fatal_eq h)

theorem mem_dynChunk {cfg : SeqConfig} {e : StepEnv} {size : ℤ} {sa : Option ℕ}
    {k : ℕ} {ev : Ev} (h : ev ∈ (dynChunk cfg e size sa k).1) :
    ev = Ev.resizeStarted size ∨ (∃ a b, ev = Ev.resizeQuery a b) ∨
      ev = Ev.resizeCompleted size := by
  by_cases hd : cfg.dynamic_resize
  · simp only [dynChunk, hd, if_true] at h
    rcases List.mem_cons.mp h with h | h
    · exact Or.inl h
    · rcases List.mem_append.mp h with h | h
      · exact Or.inr (Or.inl (mem_pollResize h))
      · exact Or.inr (Or.inr (List.mem_singleton.mp h))
  · simp [dynChunk, hd] at h

theorem mem_restChunk {cfg : SeqConfig} {e : StepEnv} {size : ℤ} {sa : Option ℕ}
    {k : ℕ} {ev : Ev} (h : ev ∈ (restChunk cfg e size sa k).1) :
    ev = Ev.restartStarted size ∨ ev = Ev.restartCmd ∨ ev = Ev.startAttempt ∨
      ∃ u, ev = Ev.restartCompleted size u := by
  by_cases hr : cfg.restart_required
  · simp only [restChunk, hr, if_true] at h
    rcases List.mem_cons.mp h with h | h
    · exact Or.inl h
    rcases List.mem_cons.mp h with h | h
    · exact Or.inr (Or.inl h)
    rcases List.mem_append.mp h with h | h
    · exact Or.inr (Or.inr (Or.inl (mem_waitForPostgres h)))
    · exact Or.inr (Or.inr (Or.inr ⟨_, List.mem_singleton.mp h⟩))
  · simp [restChunk, hr] at h

theorem mem_runStepRest_next {cfg : SeqConfig} {e : StepEnv} {size : ℤ}
    {sa : Option ℕ} {k : ℕ} {ev : Ev} (ha : e.applyOk = true)
    (h : ev ∈ (runStepRest cfg e size sa k).1) :
    ev = Ev.applyEv size true ∨ ev = Ev.reloadEv e.reloadOk ∨
    ev ∈ (dynChunk cfg e size sa k).1 ∨
    ev ∈ (restChunk cfg e size sa (dynChunk cfg e size sa k).2).1 ∨
    ev = Ev.showEv e.showOk := by
  rw [runStepRest] at h
  rw [ha] at h
  simp only [Bool.true_eq_false, if_false] at h
  rcases List.mem_append.mp h with h | h
  · rcases List.mem_append.mp h with h | h
    · rcases List.mem_append.mp h with h | h
      · rcases List.mem_cons.mp h with h | h
        · exact Or.inl h
        · exact Or.inr (Or.inl (List.mem_singleton.mp h))
      · exact Or.inr (Or.inr (Or.inl h))
    · exact Or.inr (Or.inr (Or.inr (Or.inl h)))
  · exact Or.inr (Or.inr (Or.inr (Or.inr (List.mem_singleton.mp h))))

theorem runStepRest_clean {cfg : SeqConfig} {e : StepEnv} {size : ℤ}
    {sa : Option ℕ} {k : ℕ} (ha : e.applyOk = true) :
    ∀ ev ∈ (runStepRest cfg e size sa k).1, ev.isFailedApply = false := by
  intro ev h
  rcases mem_runStepRest_next ha h with rfl | rfl | h | h | rfl
  · rfl
  · rfl
  · rcases mem_dynChunk h with rfl | ⟨a, b, rfl⟩ | rfl <;> rfl
  · rcases mem_restChunk h with rfl | rfl | rfl | ⟨u, rfl⟩ <;> rfl
  · rfl

/-- A failed configuration-change statement ends the sequencer trace:
nothing at all is emitted after a failed `ALTER SYSTEM`. -/
theorem afterFail_runSeq (cfg : SeqConfig) (env : ℕ → StepEnv) (sa : Option ℕ) :
    ∀ (l : List ℤ) (idx k : ℕ), afterFail (runSeq cfg env sa l idx k) = true := by
  intro l
  induction l with
  | nil => intro idx k; rfl
  | cons size rest ih =>
    intro idx k
    rcases hstep : runStep cfg (env idx) size idx sa k with ⟨evs, k2, o⟩
    cases o with
    | next =>
      have hseq : runSeq cfg env sa (size :: rest) idx k =
          evs ++ runSeq cfg env sa rest (idx + 1) k2 := by
        rw [runSeq, hstep]
      rw [hseq]
      have hclean : ∀ ev ∈ evs, ev.isFailedApply = false := by
        rcases runStep_next_eq hstep with ⟨kk, heq⟩ | ⟨kk, evs', heq, hevs⟩
        · intro ev hm
          exact runStepRest_clean (runStepRest_next_applyOk heq) ev (by rw [heq]; exact hm)
        · subst hevs
          intro ev hm
          rcases List.mem_cons.mp hm with rfl | hm
          · rfl
          · exact runStepRest_clean (runStepRest_next_applyOk heq) ev (by rw [heq]; exact hm)
      rw [afterFail_append_clean hclean]
      exact ih (idx + 1) k2
    | brk =>
      have hseq : runSeq cfg env sa (size :: rest) idx k = evs := by
        rw [runSeq, hstep]
      rw [hseq]
      rcases runStep_brk_eq hstep with rfl | rfl <;> rfl
    | fatal =>
      have hseq : runSeq cfg env sa (size :: rest) idx k = evs := by
        rw [runSeq, hstep]
      rw [hseq]
      rcases runStep_fatal_eq hstep with rfl | rfl <;> rfl

theorem applyTargets_dynChunk (cfg : SeqConfig) (e : StepEnv) (size : ℤ)
    (sa : Option ℕ) (k : ℕ) : applyTargets (dynChunk cfg e size sa k).1 = [] := by
  apply applyTargets_eq_nil
  intro ev h
  rcases mem_dynChunk h with rfl | ⟨a, b, rfl⟩ | rfl <;> rfl

theorem applyTargets_restChunk (cfg : SeqConfig) (e : StepEnv) (size : ℤ)
    (sa : Option ℕ) (k : ℕ) : applyTargets (restChunk cfg e size sa k).1 = [] := by
  apply applyTargets_eq_nil
  intro ev h
  rcases mem_restChunk h with rfl | rfl | rfl | ⟨u, rfl⟩ <;> rfl

theorem applyTargets_runStepRest {cfg : SeqConfig} {e : StepEnv} {size : ℤ}
    {sa : Option ℕ} {k : ℕ} (ha : e.applyOk = true) :
    applyTargets (runStepRest cfg e size sa k).1 = [size] := by
  simp only [runStepRest, ha, Bool.true_eq_false, if_false]
  rw [applyTargets_append, applyTargets_append, applyTargets_append,
    applyTargets_dynChunk, applyTargets_restChunk]
  simp [applyTargets]

/-- The sequencer visits the configured target values in order: the
`ALTER SYSTEM` targets of any trace form a prefix of the remaining
sequence. -/
theorem applyTargets_runSeq (cfg : SeqConfig) (env : ℕ → StepEnv) (sa : Option ℕ) :
    ∀ (l : List ℤ) (idx k : ℕ), applyTargets (runSeq cfg env sa l idx k) <+: l := by
  intro l
  induction l with
  | nil => intro idx k; simp [runSeq, applyTargets]
  | cons size rest ih =>
    intro idx k
    rcases hstep : runStep cfg (env idx) size idx sa k with ⟨evs, k2, o⟩
    cases o with
    | next =>
      have hseq : runSeq cfg env sa (size :: rest) idx k =
          evs ++ runSeq cfg env sa rest (idx + 1) k2 := by
        rw [runSeq, hstep]
      rw [hseq, applyTargets_append]
      have hevs : applyTargets evs = [size] := by
        rcases runStep_next_eq hstep with ⟨kk, heq⟩ | ⟨kk, evs', heq, hevs⟩
        · rw [show evs = (runStepRest cfg (env idx) size sa kk).1 by rw [heq]]
          exact applyTargets_runStepRest (runStepRest_next_applyOk heq)
        · subst hevs
          have : applyTargets evs' = [size] := by
            rw [show evs' = (runStepRest cfg (env idx) size sa kk).1 by rw [heq]]
            exact applyTargets_runStepRest (runStepRest_next_applyOk heq)
          simpa [applyTargets] using this
      rw [hevs]
      obtain ⟨t, ht⟩ := ih (idx + 1) k2
      exact ⟨t, by rw [List.append_assoc, ht]; rfl⟩
    | brk =>
      have hseq : runSeq cfg env sa (size :: rest) idx k = evs := by
        rw [runSeq, hstep]
      rw [hseq]
      rcases runStep_brk_eq hstep with rfl | rfl <;>
        simp [applyTargets]
    | fatal =>
      have hseq : runSeq cfg env sa (size :: rest) idx k = evs := by
        rw [runSeq, hstep]
      rw [hseq]
      rcases runStep_fatal_eq hstep with rfl | rfl
      · exact ⟨rest, by simp [applyTargets]⟩
      · exact ⟨rest, by simp [applyTargets]⟩

theorem pairScanAux_dynChunk (cfg : SeqConfig) (e : StepEnv) (size : ℤ)
    (sa : Option ℕ) (k : ℕ) (s : ℕ) (B : List Ev) :
    pairScanAux s ((dynChunk cfg e size sa k).1 ++ B) = pairScanAux s B := by
  by_cases hd : cfg.dynamic_resize
  · simp only [dynChunk, hd, if_true, List.cons_append, List.append_assoc,
      List.singleton_append, List.nil_append]
    rw [show pairScanAux s (Ev.resizeStarted size ::
        ((pollResize sa e.resizePre e.resizeFinalOk k).1 ++ Ev.resizeCompleted size :: B)) =
        pairScanAux (s + 1)
        ((pollResize sa e.resizePre e.resizeFinalOk k).1 ++ Ev.resizeCompleted size :: B)
      from rfl]
    rw [pairScanAux_append_other]
    · rw [show pairScanAux (s + 1) (Ev.resizeCompleted size :: B) =
          (decide (0 < s + 1) && pairScanAux (s + 1 - 1) B) from rfl]
      simp
    · intro ev h
      obtain ⟨a, b, rfl⟩ := mem_pollResize h
      exact ⟨rfl, rfl⟩
  · simp [dynChunk, hd]

theorem pairScanAux_restChunk (cfg : SeqConfig) (e : StepEnv) (size : ℤ)
    (sa : Option ℕ) (k : ℕ) (s : ℕ) (B : List Ev) :
    pairScanAux s ((restChunk cfg e size sa k).1 ++ B) = pairScanAux s B := by
  apply pairScanAux_append_other
  intro ev h
  rcases mem_restChunk h with rfl | rfl | rfl | ⟨u, rfl⟩ <;> exact ⟨rfl, rfl⟩

theorem pairScanAux_runStepRest {cfg : SeqConfig} {e : StepEnv} {size : ℤ}
    {sa : Option ℕ} {k : ℕ} (ha : e.applyOk = true) (s : ℕ) (B : List Ev) :
    pairScanAux s ((runStepRest cfg e size sa k).1 ++ B) = pairScanAux s B := by
  simp only [runStepRest, ha, Bool.true_eq_false, if_false, List.append_assoc]
  rw [pairScanAux_append_other (by intro ev h; fin_cases h <;> exact ⟨rfl, rfl⟩),
    pairScanAux_dynChunk, pairScanAux_restChunk,
    pairScanAux_append_other (by intro ev h; fin_cases h <;> exact ⟨rfl, rfl⟩)]

/-- In every sequencer trace, `resize-completed` records never outrun
their `resize-started` records. -/
theorem pairScanAux_runSeq (cfg : SeqConfig) (env : ℕ → StepEnv) (sa : Option ℕ) :
    ∀ (l : List ℤ) (idx k s : ℕ), pairScanAux s (runSeq cfg env sa l idx k) = true := by
  intro l
  induction l with
  | nil => intro idx k s; rfl
  | cons size rest ih =>
    intro idx k s
    rcases hstep : runStep cfg (env idx) size idx sa k with ⟨evs, k2, o⟩
    cases o with
    | next =>
      have hseq : runSeq cfg env sa (size :: rest) idx k =
          evs ++ runSeq cfg env sa rest (idx + 1) k2 := by
        rw [runSeq, hstep]
      rw [hseq]
      rcases runStep_next_eq hstep with ⟨kk, heq⟩ | ⟨kk, evs', heq, hevs⟩
      · rw [show evs = (runStepRest cfg (env idx) size sa kk).1 by rw [heq],
          pairScanAux_runStepRest (runStepRest_next_applyOk heq)]
        exact ih (idx + 1) k2 s
      · subst hevs
        rw [List.cons_append,
          @pairScanAux_cons_other (Ev.dwell false) rfl rfl,
          show evs' = (runStepRest cfg (env idx) size sa kk).1 by rw [heq],
          pairScanAux_runStepRest (runStepRest_next_applyOk heq)]
        exact ih (idx + 1) k2 s
    | brk =>
      have hseq : runSeq cfg env sa (size :: rest) idx k = evs := by
        rw [runSeq, hstep]
      rw [hseq]
      rcases runStep_brk_eq hstep with rfl | rfl <;> rfl
    | fatal =>
      have hseq : runSeq cfg env sa (size :: rest) idx k = evs := by
        rw [runSeq, hstep]
      rw [hseq]
      rcases runStep_fatal_eq hstep with rfl | rfl <;> rfl

theorem restartCompletedUp_of_no_rc {A : List Ev}
    (h : ∀ e ∈ A, ∀ z u, e ≠ Ev.restartCompleted z u) :
    restartCompletedUp A = true := by
  induction A with
  | nil => rfl
  | cons e A ih =>
    rw [restartCompletedUp_cons]
    have he := h e (List.mem_cons_self e A)
    have hA := ih fun x hx => h x (List.mem_cons_of_mem e hx)
    cases e <;> simp_all

theorem restartCompletedUp_dynChunk (cfg : SeqConfig) (e : StepEnv) (size : ℤ)
    (sa : Option ℕ) (k : ℕ) :
    restartCompletedUp (dynChunk cfg e size sa k).1 = true := by
  apply restartCompletedUp_of_no_rc
  intro ev h
  rcases mem_dynChunk h with rfl | ⟨a, b, rfl⟩ | rfl <;> intro z u <;> simp

/-- With the stop event never set, every `restart-completed` record of
the restart block is written with the service observed running. -/
theorem restartCompletedUp_restChunk_none (cfg : SeqConfig) (e : StepEnv)
    (size : ℤ) (k : ℕ) :
    restartCompletedUp (restChunk cfg e size none k).1 = true := by
  by_cases hr : cfg.restart_required
  · simp only [restChunk, hr, if_true]
    rw [restartCompletedUp_cons, restartCompletedUp_cons,
      restartCompletedUp_append, restartCompletedUp_cons]
    rw [restartCompletedUp_of_no_rc
      (fun x hx => by rw [mem_waitForPostgres hx]; intro z u; simp)]
    simp [waitForPostgres_none, restartCompletedUp]
  · simp [restChunk, hr, restartCompletedUp]

theorem restartCompletedUp_runStepRest_none {cfg : SeqConfig} {e : StepEnv}
    {size : ℤ} {k : ℕ} (ha : e.applyOk = true) :
    restartCompletedUp (runStepRest cfg e size none k).1 = true := by
  simp only [runStepRest, ha, Bool.true_eq_false, if_false]
  rw [restartCompletedUp_append, restartCompletedUp_append, restartCompletedUp_append]
  rw [restartCompletedUp_dynChunk, restartCompletedUp_restChunk_none]
  rw [restartCompletedUp_of_no_rc (by intro x hx; fin_cases hx <;> intro z u <;> simp)]
  rw [restartCompletedUp_of_no_rc (by intro x hx; fin_cases hx <;> intro z u <;> simp)]
  rfl

/-- With the stop event never set during the sequencer run, no
`restart-completed` record is written while the service is down. -/
theorem restartCompletedUp_runSeq_none (cfg : SeqConfig) (env : ℕ → StepEnv) :
    ∀ (l : List ℤ) (idx k : ℕ),
      restartCompletedUp (runSeq cfg env none l idx k) = true := by
  intro l
  induction l with
  | nil => intro idx k; rfl
  | cons size rest ih =>
    intro idx k
    rcases hstep : runStep cfg (env idx) size idx none k with ⟨evs, k2, o⟩
    cases o with
    | next =>
      have hseq : runSeq cfg env none (size :: rest) idx k =
          evs ++ runSeq cfg env none rest (idx + 1) k2 := by
        rw [runSeq, hstep]
      rw [hseq, restartCompletedUp_append]
      have hevs : restartCompletedUp evs = true := by
        rcases runStep_next_eq hstep with ⟨kk, heq⟩ | ⟨kk, evs', heq, hevs⟩
        · rw [show evs = (runStepRest cfg (env idx) size none kk).1 by rw [heq]]
          exact restartCompletedUp_runStepRest_none (runStepRest_next_applyOk heq)
        · subst hevs
          rw [restartCompletedUp_cons,
            show evs' = (runStepRest cfg (env idx) size none kk).1 by rw [heq],
            restartCompletedUp_runStepRest_none (runStepRest_next_applyOk heq)]
          rfl
      rw [hevs, ih (idx + 1) k2]
      rfl
    | brk =>
      have hseq : runSeq cfg env none (size :: rest) idx k = evs := by
        rw [runSeq, hstep]
      rw [hseq]
      rcases runStep_brk_eq hstep with rfl | rfl <;> rfl
    | fatal =>
      have hseq : runSeq cfg env none (size :: rest) idx k = evs := by
        rw [runSeq, hstep]
      rw [hseq]
      rcases runStep_fatal_eq hstep with rfl | rfl <;> rfl

theorem catOk_of_not_completed {e : Ev} (h : e.isResizeCompleted = false) (a : Bool) :
    catOk a e = true := by
  cases e <;> simp_all [catOk, Ev.isResizeCompleted]

theorem catScan_no_completed {A : List Ev}
    (h : ∀ e ∈ A, e.isResizeCompleted = false) : ∀ a, catScan a A = true := by
  induction A with
  | nil => intro a; rfl
  | cons e A ih =>
    intro a
    rw [show catScan a (e :: A) = (catOk a e && catScan (catNext a e) A) from rfl,
      catOk_of_not_completed (h e (List.mem_cons_self e A)),
      ih (fun x hx => h x (List.mem_cons_of_mem e hx)) (catNext a e)]
    rfl

theorem catScan_append_true {A B : List Ev} (hA : ∀ a, catScan a A = true)
    (hB : ∀ a, catScan a B = true) : ∀ a, catScan a (A ++ B) = true := by
  intro a
  rw [catScan_append, hA, hB]
  rfl

theorem catScan_pollRun (pre : ℕ) {B : List Ev} (hB : catScan true B = true) :
    ∀ a, catScan a
      (List.replicate pre (Ev.resizeQuery true false) ++ (Ev.resizeQuery true true :: B)) =
      true := by
  induction pre with
  | zero =>
    intro a
    rw [List.replicate_zero, List.nil_append,
      show catScan a (Ev.resizeQuery true true :: B) =
        (catOk a (Ev.resizeQuery true true) &&
          catScan (catNext a (Ev.resizeQuery true true)) B) from rfl]
    simp only [catOk, catNext, Bool.and_true, Bool.or_true, Bool.true_and]
    exact hB
  | succ pre ih =>
    intro a
    rw [List.replicate_succ, List.cons_append,
      show catScan a (Ev.resizeQuery true false ::
          (List.replicate pre (Ev.resizeQuery true false) ++ (Ev.resizeQuery true true :: B))) =
        (catOk a (Ev.resizeQuery true false) &&
          catScan (catNext a (Ev.resizeQuery true false))
            (List.replicate pre (Ev.resizeQuery true false) ++ (Ev.resizeQuery true true :: B)))
        from rfl]
    simp only [catOk, catNext, Bool.and_false, Bool.or_false, Bool.true_and]
    exact ih a

/-- With the stop event never set and a truthy decisive poll, the
dynamic-resize block always passes the completed-after-truthy scanner. -/
theorem catScan_dynChunk_none {cfg : SeqConfig} {e : StepEnv} {size : ℤ} {k : ℕ}
    (hf : e.resizeFinalOk = true) :
    ∀ a, catScan a ((dynChunk cfg e size none k).1) = true := by
  intro a
  by_cases hd : cfg.dynamic_resize
  · simp only [dynChunk, hd, if_true, pollResize_none, hf, List.append_assoc,
      List.singleton_append]
    rw [show catScan a (Ev.resizeStarted size ::
        (List.replicate e.resizePre (Ev.resizeQuery true false) ++
          (Ev.resizeQuery true true :: [Ev.resizeCompleted size]))) =
      catScan false
        (List.replicate e.resizePre (Ev.resizeQuery true false) ++
          (Ev.resizeQuery true true :: [Ev.resizeCompleted size])) from rfl]
    exact catScan_pollRun e.resizePre (by rfl) false
  · simp [dynChunk, hd, catScan]

theorem catScan_restChunk (cfg : SeqConfig) (e : StepEnv) (size : ℤ)
    (sa : Option ℕ) (k : ℕ) :
    ∀ a, catScan a ((restChunk cfg e size sa k).1) = true := by
  apply catScan_no_completed
  intro ev h
  rcases mem_restChunk h with rfl | rfl | rfl | ⟨u, rfl⟩ <;> rfl

theorem catScan_runStepRest_none {cfg : SeqConfig} {e : StepEnv} {size : ℤ}
    {k : ℕ} (ha : e.applyOk = true) (hf : e.resizeFinalOk = true) :
    ∀ a, catScan a ((runStepRest cfg e size none k).1) = true := by
  simp only [runStepRest, ha, Bool.true_eq_false, if_false]
  refine catScan_append_true (catScan_append_true (catScan_append_true ?_ ?_) ?_) ?_
  · exact catScan_no_completed (by intro x hx; fin_cases hx <;> rfl)
  · exact catScan_dynChunk_none hf
  · exact catScan_restChunk cfg e size none _
  · exact catScan_no_completed (by intro x hx; fin_cases hx <;> rfl)

/-- With the stop event never set and every decisive poll truthy, every
`resize-completed` record of a sequencer run is preceded by a truthy
`pg_resize_shared_buffers()` poll. -/
theorem catScan_runSeq_none (cfg : SeqConfig) (env : ℕ → StepEnv)
    (hf : ∀ i, (env i).resizeFinalOk = true) :
    ∀ (l : List ℤ) (idx k : ℕ) (a : Bool),
      catScan a (runSeq cfg env none l idx k) = true := by
  intro l
  induction l with
  | nil => intro idx k a; rfl
  | cons size rest ih =>
    intro idx k a
    rcases hstep : runStep cfg (env idx) size idx none k with ⟨evs, k2, o⟩
    cases o with
    | next =>
      have hseq : runSeq cfg env none (size :: rest) idx k =
          evs ++ runSeq cfg env none rest (idx + 1) k2 := by
        rw [runSeq, hstep]
      rw [hseq]
      have hevs : ∀ a, catScan a evs = true := by
        rcases runStep_next_eq hstep with ⟨kk, heq⟩ | ⟨kk, evs', heq, hevs⟩
        · intro a
          rw [show evs = (runStepRest cfg (env idx) size none kk).1 by rw [heq]]
          exact catScan_runStepRest_none (runStepRest_next_applyOk heq) (hf idx) a
        · subst hevs
          intro a
          rw [show catScan a (Ev.dwell false :: evs') =
            (catOk a (Ev.dwell false) && catScan (catNext a (Ev.dwell false)) evs') from rfl]
          simp only [catOk, catNext, Bool.true_and]
          rw [show evs' = (runStepRest cfg (env idx) size none kk).1 by rw [heq]]
          exact catScan_runStepRest_none (runStepRest_next_applyOk heq) (hf idx) a
      exact catScan_append_true hevs (fun a => ih (idx + 1) k2 a) a
    | brk =>
      have hseq : runSeq cfg env none (size :: rest) idx k = evs := by
        rw [runSeq, hstep]
      rw [hseq]
      rcases runStep_brk_eq hstep with rfl | rfl <;> rfl
    | fatal =>
      have hseq : runSeq cfg env none (size :: rest) idx k = evs := by
        rw [runSeq, hstep]
      rw [hseq]
      rcases runStep_fatal_eq hstep with rfl | rfl <;> rfl

/-! ### Lemmas about the runner model -/

/-- Every readline of the read loop happens at a tick where the stop
event is still unset, so at most `n - k` lines are read. -/
theorem readLoop_linesRead_le {tc rt : String} {n : ℕ} :
    ∀ (lines : List String) (k : ℕ),
      (readLoop tc rt (some n) lines k).2.2.1 ≤ n - k := by
  intro lines
  induction lines with
  | nil =>
    intro k
    by_cases h : sigSet (some n) k <;> simp [readLoop, h]
  | cons line rest ih =>
    intro k
    by_cases h : sigSet (some n) k
    · simp [readLoop, h]
    · have hk : k < n := by
        simp only [sigSet, decide_eq_true_eq] at h
        omega
      have := ih (k + 1)
      simp only [readLoop, h, Bool.false_eq_true, if_false]
      omega

theorem execIteration_startTick (tc rt : String) (lines : List String)
    (sa : Option ℕ) (k : ℕ) : (execIteration tc rt lines sa k).startTick = k := rfl

theorem execIteration_terminated_eq (tc rt : String) (lines : List String)
    (sa : Option ℕ) (k : ℕ) :
    (execIteration tc rt lines sa k).terminated =
      (execIteration tc rt lines sa k).cancelled := rfl

theorem execIteration_linesRead (tc rt : String) (lines : List String)
    (sa : Option ℕ) (k : ℕ) :
    (execIteration tc rt lines sa k).linesRead = (readLoop tc rt sa lines k).2.2.1 := rfl

/-! ### Claim theorems: sequencer and runner -/

/-- C1 (counterexample): in end-to-end scenario B — sequence `(4,8,12)`,
restart disabled, dynamic resize enabled, all statements succeeding and
cancellation never signalled — the run does emit exactly three
`resize-started`/`resize-completed` pairs and zero restart records, but
the claimed dwell wait before the first step never happens: no dwell
event precedes the first `ALTER SYSTEM` (the code guards the dwell with
`if index > 1`), refuting the claim that a dwell occurs before every
step including the first. -/
theorem c1_no_dwell_before_first_step_cex :
    ((resize_controller seqConfigB envOk none).countP Ev.isResizeStarted = 3 ∧
     (resize_controller seqConfigB envOk none).countP Ev.isResizeCompleted = 3 ∧
     (resize_controller seqConfigB envOk none).countP Ev.isRestartRecord = 0) ∧
    ¬ (1 ≤ dwellsBeforeFirstApply (resize_controller seqConfigB envOk none)) := by
  decide

/-- C1 (amended): for a configuration sequence of three target values
with restart disabled and dynamic resize enabled, an uninterrupted
all-success run emits exactly three `resize-started`/`resize-completed`
pairs (properly ordered), zero restart records, visits the targets in
order, and performs a dwell wait before every step except the first —
the trace contains exactly two dwell events and none before the first
`ALTER SYSTEM`. -/
theorem c1_three_pairs_no_restart_dwell_between_steps (a b c : ℤ) (w : ℕ) :
    resize_controller ⟨[a, b, c], w, false, true⟩ envOk none =
      [Ev.applyEv a true, Ev.reloadEv true, Ev.resizeStarted a, Ev.resizeQuery true true,
       Ev.resizeCompleted a, Ev.showEv true,
       Ev.dwell false, Ev.applyEv b true, Ev.reloadEv true, Ev.resizeStarted b,
       Ev.resizeQuery true true, Ev.resizeCompleted b, Ev.showEv true,
       Ev.dwell false, Ev.applyEv c true, Ev.reloadEv true, Ev.resizeStarted c,
       Ev.resizeQuery true true, Ev.resizeCompleted c, Ev.showEv true] ∧
    (resize_controller ⟨[a, b, c], w, false, true⟩ envOk none).countP Ev.isResizeStarted = 3 ∧
    (resize_controller ⟨[a, b, c], w, false, true⟩ envOk none).countP Ev.isResizeCompleted = 3 ∧
    pairScan (resize_controller ⟨[a, b, c], w, false, true⟩ envOk none) = true ∧
    (resize_controller ⟨[a, b, c], w, false, true⟩ envOk none).countP Ev.isRestartRecord = 0 ∧
    applyTargets (resize_controller ⟨[a, b, c], w, false, true⟩ envOk none) = [a, b, c] ∧
    (resize_controller ⟨[a, b, c], w, false, true⟩ envOk none).countP Ev.isDwell = 2 ∧
    dwellsBeforeFirstApply (resize_controller ⟨[a, b, c], w, false, true⟩ envOk none) = 0 := by
  refine ⟨rfl, rfl, rfl, rfl, rfl, ?_, rfl, rfl⟩
  simp [resize_controller, runSeq, runStep, runStepRest, dynChunk, restChunk,
    pollResize, envOk, applyTargets, sigSet]

/-- C2: whenever an `ALTER SYSTEM` statement of a step fails, the
sequencer emits nothing further (the trace ends at the failed statement,
so no later step of the sequence is performed), and the orchestrator's
per-test-case run always leaves the shared stop event set once the
controller has finished. -/
theorem c2_apply_failure_aborts_and_signal_set (cfg : SeqConfig)
    (env : ℕ → StepEnv) (sa : Option ℕ) :
    afterFail (resize_controller cfg env sa) = true ∧
    (collector_run_case cfg env sa true).2 = true :=
  ⟨afterFail_runSeq cfg env sa cfg.sequence 1 0, rfl⟩

/-- C3 (counterexample): with a restart required and the cancellation
signal arriving during restart recovery while the service is still down
(three recovery polls still pending), the sequencer emits
`restart-completed` although `postgres_is_running()` never held —
refuting the claim that `restart-completed` is never emitted while the
service is unreachable. -/
theorem c3_restart_completed_while_down_cex :
    Ev.restartCompleted 4 false ∈
      resize_controller seqConfigRestart envSlowRestart (some 1) ∧
    restartCompletedUp (resize_controller seqConfigRestart envSlowRestart (some 1)) = false := by
  decide

/-- C3 (amended): in every execution of the sequencer the target values
are visited strictly in configured order (the `ALTER SYSTEM` targets form
a prefix of the configured sequence) and `resize-completed` is never
emitted before its corresponding `resize-started`; and provided the
cancellation signal is not set during the run, `restart-completed` is
never emitted while the service is unreachable (if cancellation arrives
mid-recovery the event can be emitted with the service still down, as the
counterexample shows). -/
theorem c3_order_pairing_restart_up (cfg : SeqConfig) (env : ℕ → StepEnv)
    (sa : Option ℕ) :
    applyTargets (resize_controller cfg env sa) <+: cfg.sequence ∧
    pairScan (resize_controller cfg env sa) = true ∧
    restartCompletedUp (resize_controller cfg env none) = true :=
  ⟨applyTargets_runSeq cfg env sa cfg.sequence 1 0,
   pairScanAux_runSeq cfg env sa cfg.sequence 1 0 0,
   restartCompletedUp_runSeq_none cfg env cfg.sequence 1 0⟩

/-- C4 (counterexample): with dynamic resize enabled but the
`pg_resize_shared_buffers()` query failing (as on a backend without that
function), the sequencer emits `resize-completed` immediately after the
failed query, without the predicate ever having returned truthy —
refuting the claim that `resize-completed` is only emitted after a
truthy poll. -/
theorem c4_completed_without_truthy_cex :
    Ev.resizeCompleted 4 ∈ resize_controller seqConfigDyn envResizeFails none ∧
    completedAfterTruthy (resize_controller seqConfigDyn envResizeFails none) = false := by
  decide

/-- C4 (amended): when dynamic resize is enabled the sequencer polls the
resize-completion predicate before emitting `resize-completed`, and as
long as no poll fails and the cancellation signal never arrives, every
`resize-completed` record is preceded by a poll that returned truthy;
a failing poll or a cancellation during polling ends the wait and the
event is emitted regardless. -/
theorem c4_completed_only_after_truthy_poll (cfg : SeqConfig)
    (env : ℕ → StepEnv) (hf : ∀ i, (env i).resizeFinalOk = true) :
    completedAfterTruthy (resize_controller cfg env none) = true :=
  catScan_runSeq_none cfg env hf cfg.sequence 1 0 false

theorem c4_completed_only_after_truthy_poll_witness :
    (∀ i, (envOk i).resizeFinalOk = true) ∧
    completedAfterTruthy (resize_controller defaultSeqConfig envOk none) = true :=
  ⟨fun _ => rfl,
   c4_completed_only_after_truthy_poll defaultSeqConfig envOk (fun _ => rfl)⟩

/-- C5: in every run of the measurement loop with the cancellation
signal arriving at tick `n`, every measurement iteration that is started
starts while the signal is still unset (`startTick < n`); an iteration
reads no line at or after the signal (`startTick + linesRead ≤ n`), and
an iteration cancelled mid-flight terminates its external process rather
than waiting for natural completion. -/
theorem c5_cancellation_stops_runner (tc : String) (outputs : ℕ → List String)
    (n : ℕ) :
    ∀ (fuel k i : ℕ), ∀ r ∈ runLoop tc outputs (some n) fuel k i,
      r.startTick < n ∧ r.startTick + r.linesRead ≤ n ∧
      (r.cancelled = true → r.terminated = true) := by
  intro fuel
  induction fuel with
  | zero => intro k i r hr; exact absurd hr (List.not_mem_nil r)
  | succ fuel ih =>
    intro k i r hr
    rw [runLoop] at hr
    by_cases h1 : sigSet (some n) k
    · rw [if_pos h1] at hr
      exact absurd hr (List.not_mem_nil r)
    · rw [if_neg h1] at hr
      have hk : k < n := by
        simp only [sigSet, decide_eq_true_eq] at h1
        omega
      have hself : r = execIteration tc "measurement" (outputs i) (some n) k →
          r.startTick < n ∧ r.startTick + r.linesRead ≤ n ∧
          (r.cancelled = true → r.terminated = true) := by
        rintro rfl
        refine ⟨hk, ?_, ?_⟩
        · have hb := @readLoop_linesRead_le tc "measurement" n (outputs i) k
          rw [execIteration_startTick, execIteration_linesRead]
          omega
        · rw [execIteration_terminated_eq]
          exact fun h => h
      by_cases h2 : sigSet (some n)
          (execIteration tc "measurement" (outputs i) (some n) k).endTick
      · rw [if_pos h2] at hr
        exact hself (List.mem_singleton.mp hr)
      · rw [if_neg h2] at hr
        rcases List.mem_cons.mp hr with rfl | hr
        · exact hself rfl
        · exact ih _ _ r hr

theorem c5_cancellation_stops_runner_witness :
    ({ startTick := 0, endTick := 1, samples := [], linesRead := 0,
       cancelled := false, terminated := false } : IterRec) ∈
      runLoop "Select1" (fun _ => []) (some 1) 2 0 0 ∧
    (0 < 1 ∧ 0 + 0 ≤ 1 ∧ (false = true → false = true)) := by
  constructor
  · decide
  · exact c5_cancellation_stops_runner "Select1" (fun _ => []) 1 2 0 0
      { startTick := 0, endTick := 1, samples := [], linesRead := 0,
        cancelled := false, terminated := false } (by decide)

/-- C9: a measurement iteration whose subprocess emits the single
progress line `progress: 10.0 s, 500.2 tps, lat 2.500 ms stddev 0.300`
produces exactly one metric sample, with elapsed 10 s, 500.2
transactions per second, mean latency 2.5 ms, latency standard deviation
0.3 ms, and run phase `measurement`; the per-line parser yields exactly
that sample for the line. -/
theorem c9_progress_line_single_sample (tc : String) (k : ℕ) :
    processLine tc "measurement"
        "progress: 10.0 s, 500.2 tps, lat 2.500 ms stddev 0.300" =
      some { test_case := tc, run_type := "measurement", elapsed := 10,
             tps := 500.2, latency_avg := 2.5, latency_stddev := 0.3 } ∧
    (execIteration tc "measurement"
        ["progress: 10.0 s, 500.2 tps, lat 2.500 ms stddev 0.300"] none k).samples =
      [{ test_case := tc, run_type := "measurement", elapsed := 10,
         tps := 500.2, latency_avg := 2.5, latency_stddev := 0.3 }] ∧
    (execIteration tc "measurement"
        ["progress: 10.0 s, 500.2 tps, lat 2.500 ms stddev 0.300"] none k).linesRead = 1 ∧
    (execIteration tc "measurement"
        ["progress: 10.0 s, 500.2 tps, lat 2.500 ms stddev 0.300"] none k).cancelled = false := by
  have e1 : ((digitsToNat ['1', '0'] : ℚ) +
      (digitsToNat ['0'] : ℚ) / (10 : ℚ) ^ (['0'] : List Char).length) = 10 := by
    rw [show digitsToNat ['1', '0'] = 10 from rfl, show digitsToNat ['0'] = 0 from rfl,
      show (['0'] : List Char).length = 1 from rfl]
    norm_num
  have e2 : ((digitsToNat ['5', '0', '0'] : ℚ) +
      (digitsToNat ['2'] : ℚ) / (10 : ℚ) ^ (['2'] : List Char).length) = 500.2 := by
    rw [show digitsToNat ['5', '0', '0'] = 500 from rfl, show digitsToNat ['2'] = 2 from rfl,
      show (['2'] : List Char).length = 1 from rfl]
    norm_num
  have e3 : ((digitsToNat ['2'] : ℚ) +
      (digitsToNat ['5', '0', '0'] : ℚ) /
        (10 : ℚ) ^ (['5', '0', '0'] : List Char).length) = 2.5 := by
    rw [show digitsToNat ['2'] = 2 from rfl, show digitsToNat ['5', '0', '0'] = 500 from rfl,
      show (['5', '0', '0'] : List Char).length = 3 from rfl]
    norm_num
  have e4 : ((digitsToNat ['0'] : ℚ) +
      (digitsToNat ['3', '0', '0'] : ℚ) /
        (10 : ℚ) ^ (['3', '0', '0'] : List Char).length) = 0.3 := by
    rw [show digitsToNat ['0'] = 0 from rfl, show digitsToNat ['3', '0', '0'] = 300 from rfl,
      show (['3', '0', '0'] : List Char).length = 3 from rfl]
    norm_num
  have hp : processLine tc "measurement"
      "progress: 10.0 s, 500.2 tps, lat 2.500 ms stddev 0.300" =
      some { test_case := tc, run_type := "measurement",
             elapsed := (digitsToNat ['1', '0'] : ℚ) +
               (digitsToNat ['0'] : ℚ) / (10 : ℚ) ^ (['0'] : List Char).length,
             tps := (digitsToNat ['5', '0', '0'] : ℚ) +
               (digitsToNat ['2'] : ℚ) / (10 : ℚ) ^ (['2'] : List Char).length,
             latency_avg := (digitsToNat ['2'] : ℚ) +
               (digitsToNat ['5', '0', '0'] : ℚ) /
                 (10 : ℚ) ^ (['5', '0', '0'] : List Char).length,
             latency_stddev := (digitsToNat ['0'] : ℚ) +
               (digitsToNat ['3', '0', '0'] : ℚ) /
                 (10 : ℚ) ^ (['3', '0', '0'] : List Char).length } := rfl
  have hs : (execIteration tc "measurement"
      ["progress: 10.0 s, 500.2 tps, lat 2.500 ms stddev 0.300"] none k).samples =
      (processLine tc "measurement"
        "progress: 10.0 s, 500.2 tps, lat 2.500 ms stddev 0.300").toList := by
    rw [hp]
    rfl
  refine ⟨?_, ?_, rfl, rfl⟩
  · rw [hp, e1, e2, e3, e4]
  · rw [hs, hp, e1, e2, e3, e4]
    rfl

/-! ### Claim theorems: command planner -/

/-- C7: for the point-lookup class `Select1`, both planner variants force
connection count and thread count to 1 and omit the scale factor, and the
produced pipeline carries no `-s` flag in the initialize command or the
measure command — and no warmup phase exists — regardless of the
profile's core count and multipliers (string-valued profile fields fixed
to the repository defaults). -/
theorem c7_select1_unit_counts_no_scale_flag (v : ℕ) (cm tm roF roB rwF : ℚ) :
    CreatePGCommand.calculate_scale_thread_connection
        (mkServer v cm tm roF roB rwF) "Select1" = (none, 1, 1) ∧
    PerfTest.calculate_scale_thread_connection
        (mkServer v cm tm roF roB rwF) "Select1" = some (none, 1, 1) ∧
    hasScaleFlag (CreatePGCommand.pgcommand_to_execute
        (mkServer v cm tm roF roB rwF) "Select1" "select1.sql" "BIN").initializeCmd = false ∧
    hasScaleFlag (CreatePGCommand.pgcommand_to_execute
        (mkServer v cm tm roF roB rwF) "Select1" "select1.sql" "BIN").testruns = false ∧
    (CreatePGCommand.pgcommand_to_execute
        (mkServer v cm tm roF roB rwF) "Select1" "select1.sql" "BIN").warmupruns = none := by
  refine ⟨rfl, rfl, rfl, ?_, rfl⟩
  simp only [CreatePGCommand.pgcommand_to_execute,
    CreatePGCommand.calculate_scale_thread_connection, mkServer,
    String.reduceEq, reduceIte]
  decide

/-- C8: for a workload-class identifier matching none of the known
classes (`"NewWorkload"`), the `perf_test` planner fails — its
`calculate_scale_thread_connection` returns the bare `None`, so
`pgcommand_to_execute` crashes unpacking it (modelled as `none`) — while
the resize-restart variant returns the documented pass-through result
`(None, connections, threads)` with multiplier-by-core counts and builds
a pipeline without any `-s` flag and without a warmup phase.  This
exhibits the `perf_test` slip against the claim (and against the
variant's own behaviour). -/
theorem c8_unknown_class_perftest_crashes_passthrough_variant :
    PerfTest.calculate_scale_thread_connection
        (mkServer 2 2 1 10 20 5) "NewWorkload" = none ∧
    PerfTest.pgcommand_to_execute
        (mkServer 2 2 1 10 20 5) "NewWorkload" "select1.sql" "BIN" = none ∧
    CreatePGCommand.calculate_scale_thread_connection
        (mkServer 2 2 1 10 20 5) "NewWorkload" = (none, 4, 2) ∧
    hasScaleFlag (CreatePGCommand.pgcommand_to_execute
        (mkServer 2 2 1 10 20 5) "NewWorkload" "select1.sql" "BIN").initializeCmd = false ∧
    hasScaleFlag (CreatePGCommand.pgcommand_to_execute
        (mkServer 2 2 1 10 20 5) "NewWorkload" "select1.sql" "BIN").testruns = false ∧
    (CreatePGCommand.pgcommand_to_execute
        (mkServer 2 2 1 10 20 5) "NewWorkload" "select1.sql" "BIN").warmupruns = none := by
  have hcalc : CreatePGCommand.calculate_scale_thread_connection
      (mkServer 2 2 1 10 20 5) "NewWorkload" = (none, 4, 2) := by
    simp only [CreatePGCommand.calculate_scale_thread_connection, mkServer,
      String.reduceEq, reduceIte]
    norm_num [pyInt, Int.floor_eq_iff]
  refine ⟨rfl, rfl, hcalc, ?_, ?_, ?_⟩ <;>
  · simp only [CreatePGCommand.pgcommand_to_execute, hcalc]
    decide

/-- C10: for the fully-cached and borderline classes, when the computed
scale factor `int(multiplier * cores / 2)` equals zero, the produced
pipeline omits the `-s` flag from both the initialize command and the
measure command — the flag is appended only when the scale factor is
truthy (`if scale_factor:`), and `0` is falsy.  String-valued profile
fields are fixed to the repository defaults. -/
theorem c10_zero_scale_factor_flag_dropped (v : ℕ) (cm tm roF roB rwF : ℚ) :
    (CreatePGCommand.calculate_scalefactor roF v = 0 →
      hasScaleFlag (CreatePGCommand.pgcommand_to_execute
        (mkServer v cm tm roF roB rwF) "RO_FullyCached" "select1.sql" "BIN").initializeCmd
          = false ∧
      hasScaleFlag (CreatePGCommand.pgcommand_to_execute
        (mkServer v cm tm roF roB rwF) "RO_FullyCached" "select1.sql" "BIN").testruns
          = false) ∧
    (CreatePGCommand.calculate_scalefactor roB v = 0 →
      hasScaleFlag (CreatePGCommand.pgcommand_to_execute
        (mkServer v cm tm roF roB rwF) "RO_Borderline" "select1.sql" "BIN").initializeCmd
          = false ∧
      hasScaleFlag (CreatePGCommand.pgcommand_to_execute
        (mkServer v cm tm roF roB rwF) "RO_Borderline" "select1.sql" "BIN").testruns
          = false) ∧
    (CreatePGCommand.calculate_scalefactor rwF v = 0 →
      hasScaleFlag (CreatePGCommand.pgcommand_to_execute
        (mkServer v cm tm roF roB rwF) "RW_FullyCached" "select1.sql" "BIN").initializeCmd
          = false ∧
      hasScaleFlag (CreatePGCommand.pgcommand_to_execute
        (mkServer v cm tm roF roB rwF) "RW_FullyCached" "select1.sql" "BIN").testruns
          = false) := by
  refine ⟨fun h => ?_, fun h => ?_, fun h => ?_⟩
  · have hcalc : CreatePGCommand.calculate_scale_thread_connection
        (mkServer v cm tm roF roB rwF) "RO_FullyCached" =
        (some 0, pyInt (cm * (v : ℚ)), pyInt (tm * (v : ℚ))) := by
      simp only [CreatePGCommand.calculate_scale_thread_connection, mkServer,
        String.reduceEq, reduceIte, h]
    have hro : strContains "RO_FullyCached" "RO_" = true := by decide
    have hrw : strContains "RO_FullyCached" "RW_" = false := by decide
    have hsel : strContains "RO_FullyCached" "Select" = false := by decide
    constructor
    · simp only [CreatePGCommand.pgcommand_to_execute, hcalc]
      simp only [mkServer]
      decide
    · simp only [CreatePGCommand.pgcommand_to_execute, hcalc]
      simp only [mkServer, pyTruthy, bne_self_eq_false, Bool.false_eq_true, if_false,
        hro, hrw, hsel, reduceIte, Bool.or_false, Bool.false_or]
      apply hasScaleFlag_eq_false_of_hasDS
      refine hasDS_str_append ?_ (by decide) (by decide)
      refine hasDS_str_append ?_ (by decide) (by decide)
      refine hasDS_str_append ?_ (by decide) (by decide)
      refine hasDS_str_append ?_ (by decide) (by decide)
      refine hasDS_str_append ?_ (by decide) (by decide)
      refine hasDS_str_append ?_ (hasDS_intRepr _) (intRepr_head_ne_s _)
      refine hasDS_str_append ?_ (by decide) (by decide)
      refine hasDS_str_append ?_ (hasDS_intRepr _) (intRepr_head_ne_s _)
      decide
  · have hcalc : CreatePGCommand.calculate_scale_thread_connection
        (mkServer v cm tm roF roB rwF) "RO_Borderline" =
        (some 0, pyInt (cm * (v : ℚ)), pyInt (tm * (v : ℚ))) := by
      simp only [CreatePGCommand.calculate_scale_thread_connection, mkServer,
        String.reduceEq, reduceIte, h]
    have hro : strContains "RO_Borderline" "RO_" = true := by decide
    have hrw : strContains "RO_Borderline" "RW_" = false := by decide
    have hsel : strContains "RO_Borderline" "Select" = false := by decide
    constructor
    · simp only [CreatePGCommand.pgcommand_to_execute, hcalc]
      simp only [mkServer]
      decide
    · simp only [CreatePGCommand.pgcommand_to_execute, hcalc]
      simp only [mkServer, pyTruthy, bne_self_eq_false, Bool.false_eq_true, if_false,
        hro, hrw, hsel, reduceIte, Bool.or_false, Bool.false_or]
      apply hasScaleFlag_eq_false_of_hasDS
      refine hasDS_str_append ?_ (by decide) (by decide)
      refine hasDS_str_append ?_ (by decide) (by decide)
      refine hasDS_str_append ?_ (by decide) (by decide)
      refine hasDS_str_append ?_ (by decide) (by decide)
      refine hasDS_str_append ?_ (by decide) (by decide)
      refine hasDS_str_append ?_ (hasDS_intRepr _) (intRepr_head_ne_s _)
      refine hasDS_str_append ?_ (by decide) (by decide)
      refine hasDS_str_append ?_ (hasDS_intRepr _) (intRepr_head_ne_s _)
      decide
  · have hcalc : CreatePGCommand.calculate_scale_thread_connection
        (mkServer v cm tm roF roB rwF) "RW_FullyCached" =
        (some 0, pyInt (cm * (v : ℚ)), pyInt (tm * (v : ℚ))) := by
      simp only [CreatePGCommand.calculate_scale_thread_connection, mkServer,
        String.reduceEq, reduceIte, h]
    have hro : strContains "RW_FullyCached" "RO_" = false := by decide
    have hrw : strContains "RW_FullyCached" "RW_" = true := by decide
    have hsel : strContains "RW_FullyCached" "Select" = false := by decide
    constructor
    · simp only [CreatePGCommand.pgcommand_to_execute, hcalc]
      simp only [mkServer]
      decide
    · simp only [CreatePGCommand.pgcommand_to_execute, hcalc]
      simp only [mkServer, pyTruthy, bne_self_eq_false, Bool.false_eq_true, if_false,
        hro, hrw, hsel, reduceIte, Bool.or_false, Bool.false_or]
      apply hasScaleFlag_eq_false_of_hasDS
      refine hasDS_str_append ?_ (by decide) (by decide)
      refine hasDS_str_append ?_ (by decide) (by decide)
      refine hasDS_str_append ?_ (by decide) (by decide)
      refine hasDS_str_append ?_ (by decide) (by decide)
      refine hasDS_str_append ?_ (hasDS_intRepr _) (intRepr_head_ne_s _)
      refine hasDS_str_append ?_ (by decide) (by decide)
      refine hasDS_str_append ?_ (hasDS_intRepr _) (intRepr_head_ne_s _)
      decide

theorem c10_zero_scale_factor_flag_dropped_witness :
    CreatePGCommand.calculate_scalefactor 10 0 = 0 ∧
    (hasScaleFlag (CreatePGCommand.pgcommand_to_execute
        (mkServer 0 2 1 10 20 5) "RO_FullyCached" "select1.sql" "BIN").initializeCmd = false ∧
     hasScaleFlag (CreatePGCommand.pgcommand_to_execute
        (mkServer 0 2 1 10 20 5) "RO_FullyCached" "select1.sql" "BIN").testruns = false) := by
  have h : CreatePGCommand.calculate_scalefactor 10 0 = 0 := by
    simp [CreatePGCommand.calculate_scalefactor, pyInt]
  exact ⟨h, (c10_zero_scale_factor_flag_dropped 0 2 1 10 20 5).1 h⟩

/-- C6 (counterexample): the claim fails in two ways on the code.  With
core count 0 (class `RO_Borderline`, default multipliers) the computed
scale factor is 0 and the `-s` flag is absent from both the initialize
and the measure command — the value does not appear, because the code
appends the flag only when the value is truthy.  And for a negative
multiplier the code computes `int()` (truncation toward zero), not
`floor`: at multiplier −1 and core count 1 the code yields 0 while the
claimed `floor(−1·1/2)` is −1. -/
theorem c6_scale_factor_flag_cex :
    (CreatePGCommand.calculate_scale_thread_connection
        (mkServer 0 2 1 10 20 5) "RO_Borderline").1 = some 0 ∧
    hasScaleFlag (CreatePGCommand.pgcommand_to_execute
        (mkServer 0 2 1 10 20 5) "RO_Borderline" "select1.sql" "BIN").initializeCmd = false ∧
    hasScaleFlag (CreatePGCommand.pgcommand_to_execute
        (mkServer 0 2 1 10 20 5) "RO_Borderline" "select1.sql" "BIN").testruns = false ∧
    CreatePGCommand.calculate_scalefactor (-1) 1 = 0 ∧
    (⌊((-1 : ℚ)) * ((1 : ℕ) : ℚ) / 2⌋ : ℤ) = -1 := by
  have hcalc : CreatePGCommand.calculate_scale_thread_connection
      (mkServer 0 2 1 10 20 5) "RO_Borderline" = (some 0, 0, 0) := by
    simp only [CreatePGCommand.calculate_scale_thread_connection, mkServer,
      String.reduceEq, reduceIte, CreatePGCommand.calculate_scalefactor]
    norm_num [pyInt]
  refine ⟨by rw [hcalc], ?_, ?_, ?_, ?_⟩
  · simp only [CreatePGCommand.pgcommand_to_execute, hcalc]
    decide
  · simp only [CreatePGCommand.pgcommand_to_execute, hcalc]
    decide
  · norm_num [CreatePGCommand.calculate_scalefactor, pyInt, Int.floor_eq_iff]
  · norm_num [Int.floor_eq_iff]

/-- C6 (amended): for every server profile with nonnegative class
multiplier and every fully-cached or borderline class, the planner's
scale factor is `some ⌊multiplier * coreCount / 2⌋`, and whenever that
value is nonzero the text `-s <value>` appears in both the initialize
command and the measure command of the produced pipeline (when it is
zero the flag is omitted, as the counterexample shows; string-valued
profile fields fixed to the repository defaults). -/
theorem c6_scale_factor_floor_and_flag (v : ℕ) (cm tm roF roB rwF : ℚ) :
    (0 ≤ roF →
      (CreatePGCommand.calculate_scale_thread_connection
          (mkServer v cm tm roF roB rwF) "RO_FullyCached").1 = some ⌊roF * (v : ℚ) / 2⌋ ∧
      (⌊roF * (v : ℚ) / 2⌋ ≠ 0 →
        strContains (CreatePGCommand.pgcommand_to_execute
            (mkServer v cm tm roF roB rwF) "RO_FullyCached" "select1.sql" "BIN").initializeCmd
          (" -s " ++ toString ⌊roF * (v : ℚ) / 2⌋) = true ∧
        strContains (CreatePGCommand.pgcommand_to_execute
            (mkServer v cm tm roF roB rwF) "RO_FullyCached" "select1.sql" "BIN").testruns
          (" -s " ++ toString ⌊roF * (v : ℚ) / 2⌋) = true)) ∧
    (0 ≤ roB →
      (CreatePGCommand.calculate_scale_thread_connection
          (mkServer v cm tm roF roB rwF) "RO_Borderline").1 = some ⌊roB * (v : ℚ) / 2⌋ ∧
      (⌊roB * (v : ℚ) / 2⌋ ≠ 0 →
        strContains (CreatePGCommand.pgcommand_to_execute
            (mkServer v cm tm roF roB rwF) "RO_Borderline" "select1.sql" "BIN").initializeCmd
          (" -s " ++ toString ⌊roB * (v : ℚ) / 2⌋) = true ∧
        strContains (CreatePGCommand.pgcommand_to_execute
            (mkServer v cm tm roF roB rwF) "RO_Borderline" "select1.sql" "BIN").testruns
          (" -s " ++ toString ⌊roB * (v : ℚ) / 2⌋) = true)) ∧
    (0 ≤ rwF →
      (CreatePGCommand.calculate_scale_thread_connection
          (mkServer v cm tm roF roB rwF) "RW_FullyCached").1 = some ⌊rwF * (v : ℚ) / 2⌋ ∧
      (⌊rwF * (v : ℚ) / 2⌋ ≠ 0 →
        strContains (CreatePGCommand.pgcommand_to_execute
            (mkServer v cm tm roF roB rwF) "RW_FullyCached" "select1.sql" "BIN").initializeCmd
          (" -s " ++ toString ⌊rwF * (v : ℚ) / 2⌋) = true ∧
        strContains (CreatePGCommand.pgcommand_to_execute
            (mkServer v cm tm roF roB rwF) "RW_FullyCached" "select1.sql" "BIN").testruns
          (" -s " ++ toString ⌊rwF * (v : ℚ) / 2⌋) = true)) := by
  refine ⟨fun hm => ?_, fun hm => ?_, fun hm => ?_⟩
  · have hq : (0 : ℚ) ≤ roF * (v : ℚ) / 2 :=
      div_nonneg (mul_nonneg hm (Nat.cast_nonneg v)) (by norm_num)
    have hcalc : CreatePGCommand.calculate_scale_thread_connection
        (mkServer v cm tm roF roB rwF) "RO_FullyCached" =
        (some ⌊roF * (v : ℚ) / 2⌋, pyInt (cm * (v : ℚ)), pyInt (tm * (v : ℚ))) := by
      simp only [CreatePGCommand.calculate_scale_thread_connection, mkServer,
        String.reduceEq, reduceIte, CreatePGCommand.calculate_scalefactor]
      rw [pyInt_eq_floor hq]
    refine ⟨by rw [hcalc], fun hne => ?_⟩
    have hro : strContains "RO_FullyCached" "RO_" = true := by decide
    have hrw : strContains "RO_FullyCached" "RW_" = false := by decide
    have hsel : strContains "RO_FullyCached" "Select" = false := by decide
    constructor
    · simp only [CreatePGCommand.pgcommand_to_execute, hcalc]
      simp only [mkServer, pyTruthy, bne_iff_ne, ne_eq, hne, not_false_eq_true,
        reduceIte, Option.getD_some, hro, hrw, hsel, Bool.or_false, Bool.false_or,
        Bool.false_eq_true, if_false]
      apply strContains_append_left
      apply strContains_append_left
      rw [String.append_assoc]
      exact strContains_append_right _ _
    · simp only [CreatePGCommand.pgcommand_to_execute, hcalc]
      simp only [mkServer, pyTruthy, bne_iff_ne, ne_eq, hne, not_false_eq_true,
        reduceIte, Option.getD_some, hro, hrw, hsel, Bool.or_false, Bool.false_or,
        Bool.false_eq_true, if_false]
      apply strContains_append_left
      apply strContains_append_left
      apply strContains_append_left
      apply strContains_append_left
      apply strContains_append_left
      rw [String.append_assoc]
      exact strContains_append_right _ _
  · have hq : (0 : ℚ) ≤ roB * (v : ℚ) / 2 :=
      div_nonneg (mul_nonneg hm (Nat.cast_nonneg v)) (by norm_num)
    have hcalc : CreatePGCommand.calculate_scale_thread_connection
        (mkServer v cm tm roF roB rwF) "RO_Borderline" =
        (some ⌊roB * (v : ℚ) / 2⌋, pyInt (cm * (v : ℚ)), pyInt (tm * (v : ℚ))) := by
      simp only [CreatePGCommand.calculate_scale_thread_connection, mkServer,
        String.reduceEq, reduceIte, CreatePGCommand.calculate_scalefactor]
      rw [pyInt_eq_floor hq]
    refine ⟨by rw [hcalc], fun hne => ?_⟩
    have hro : strContains "RO_Borderline" "RO_" = true := by decide
    have hrw : strContains "RO_Borderline" "RW_" = false := by decide
    have hsel : strContains "RO_Borderline" "Select" = false := by decide
    constructor
    · simp only [CreatePGCommand.pgcommand_to_execute, hcalc]
      simp only [mkServer, pyTruthy, bne_iff_ne, ne_eq, hne, not_false_eq_true,
        reduceIte, Option.getD_some, hro, hrw, hsel, Bool.or_false, Bool.false_or,
        Bool.false_eq_true, if_false]
      apply strContains_append_left
      apply strContains_append_left
      rw [String.append_assoc]
      exact strContains_append_right _ _
    · simp only [CreatePGCommand.pgcommand_to_execute, hcalc]
      simp only [mkServer, pyTruthy, bne_iff_ne, ne_eq, hne, not_false_eq_true,
        reduceIte, Option.getD_some, hro, hrw, hsel, Bool.or_false, Bool.false_or,
        Bool.false_eq_true, if_false]
      apply strContains_append_left
      apply strContains_append_left
      apply strContains_append_left
      apply strContains_append_left
      apply strContains_append_left
      rw [String.append_assoc]
      exact strContains_append_right _ _
  · have hq : (0 : ℚ) ≤ rwF * (v : ℚ) / 2 :=
      div_nonneg (mul_nonneg hm (Nat.cast_nonneg v)) (by norm_num)
    have hcalc : CreatePGCommand.calculate_scale_thread_connection
        (mkServer v cm tm roF roB rwF) "RW_FullyCached" =
        (some ⌊rwF * (v : ℚ) / 2⌋, pyInt (cm * (v : ℚ)), pyInt (tm * (v : ℚ))) := by
      simp only [CreatePGCommand.calculate_scale_thread_connection, mkServer,
        String.reduceEq, reduceIte, CreatePGCommand.calculate_scalefactor]
      rw [pyInt_eq_floor hq]
    refine ⟨by rw [hcalc], fun hne => ?_⟩
    have hro : strContains "RW_FullyCached" "RO_" = false := by decide
    have hrw : strContains "RW_FullyCached" "RW_" = true := by decide
    have hsel : strContains "RW_FullyCached" "Select" = false := by decide
    constructor
    · simp only [CreatePGCommand.pgcommand_to_execute, hcalc]
      simp only [mkServer, pyTruthy, bne_iff_ne, ne_eq, hne, not_false_eq_true,
        reduceIte, Option.getD_some, hro, hrw, hsel, Bool.or_false, Bool.false_or,
        Bool.false_eq_true, if_false]
      apply strContains_append_left
      apply strContains_append_left
      apply strContains_append_left
      rw [String.append_assoc]
      exact strContains_append_right _ _
    · simp only [CreatePGCommand.pgcommand_to_execute, hcalc]
      simp only [mkServer, pyTruthy, bne_iff_ne, ne_eq, hne, not_false_eq_true,
        reduceIte, Option.getD_some, hro, hrw, hsel, Bool.or_false, Bool.false_or,
        Bool.false_eq_true, if_false]
      apply strContains_append_left
      apply strContains_append_left
      apply strContains_append_left
      apply strContains_append_left
      rw [String.append_assoc]
      exact strContains_append_right _ _

theorem floor_borderline_sf_eval : (⌊(20 : ℚ) * ((4 : ℕ) : ℚ) / 2⌋ : ℤ) = 40 := by
  norm_num [Int.floor_eq_iff]

theorem c6_scale_factor_floor_and_flag_witness :
    (0 : ℚ) ≤ 20 ∧ (⌊(20 : ℚ) * ((4 : ℕ) : ℚ) / 2⌋ : ℤ) ≠ 0 ∧
    ((CreatePGCommand.calculate_scale_thread_connection
        (mkServer 4 2 1 10 20 5) "RO_Borderline").1 = some ⌊(20 : ℚ) * ((4 : ℕ) : ℚ) / 2⌋ ∧
     (strContains (CreatePGCommand.pgcommand_to_execute
          (mkServer 4 2 1 10 20 5) "RO_Borderline" "select1.sql" "BIN").initializeCmd
        (" -s " ++ toString ⌊(20 : ℚ) * ((4 : ℕ) : ℚ) / 2⌋) = true ∧
      strContains (CreatePGCommand.pgcommand_to_execute
          (mkServer 4 2 1 10 20 5) "RO_Borderline" "select1.sql" "BIN").testruns
        (" -s " ++ toString ⌊(20 : ℚ) * ((4 : ℕ) : ℚ) / 2⌋) = true)) := by
  have h0 : (0 : ℚ) ≤ 20 := by decide
  have hne : (⌊(20 : ℚ) * ((4 : ℕ) : ℚ) / 2⌋ : ℤ) ≠ 0 := by
    rw [floor_borderline_sf_eval]
    decide
  have hmain := (c6_scale_factor_floor_and_flag 4 2 1 10 20 5).2.1 h0
  exact ⟨h0, hne, hmain.1, hmain.2 hne⟩
